import Mathlib

/-!
Verification of the log-analyzer-ar repository core: format detection,
field extraction, normalization, streaming aggregation and notable-finding
heuristics.  The Python sources `log_analyzer.py`, `log_analyzer_ar/parser.py`
and `log_analyzer_ar/analyzer.py` are shallowly embedded below; regular
expressions are embedded through a small backtracking matcher whose
alternative ordering (greedy prefers longer, lazy prefers shorter, left
alternative first) mirrors the CPython `re` engine, so that the group
captures of a successful match coincide with `re.match`'s.
All embedded text is treated at ASCII granularity (the case mappings and
the `\w`/`\s` classes are modelled for ASCII characters, which is the
alphabet of the log lines the grammars accept).
-/

namespace LogVer

/-- ASCII whitespace, as stripped by Python's `str.strip` and matched by `\s`. -/
def isSpaceChar (c : Char) : Bool :=
  c == ' ' || c == '\t' || c == '\n' || c == '\r' || c == '\x0b' || c == '\x0c'

/-- `\w`: alphanumeric or underscore (ASCII). -/
def isWordChar (c : Char) : Bool :=
  c.isAlphanum || c == '_'

def stripL (s : List Char) : List Char :=
  ((s.dropWhile isSpaceChar).reverse.dropWhile isSpaceChar).reverse

/-- Python `str.strip()`. -/
def stripS (s : String) : String :=
  String.mk (stripL s.data)

def upperS (s : String) : String :=
  String.mk (s.data.map Char.toUpper)

def lowerS (s : String) : String :=
  String.mk (s.data.map Char.toLower)

/-- Python slicing `s[:n]`. -/
def takeS (n : Nat) (s : String) : String :=
  String.mk (s.data.take n)

/-- Is `pat` a contiguous substring of `hay` (Python `pat in hay`)? -/
def subList : List Char → List Char → Bool
  | _, [] => true
  | [], _ :: _ => false
  | c :: hay, pat =>
    (pat.isPrefixOf (c :: hay)) || subList hay pat

def containsS (hay pat : String) : Bool :=
  subList hay.data pat.data

def digitVal (c : Char) : Nat := c.toNat - '0'.toNat

/-- Python `int` on an all-digit string (the only shape the grammars feed it). -/
def toNatDigits? (s : String) : Option Nat :=
  if s.data ≠ [] ∧ s.data.all Char.isDigit then
    some (s.data.foldl (fun acc c => acc * 10 + digitVal c) 0)
  else none

/-! ### A backtracking regular-expression matcher

`Re.runM` returns the list of all ways to match a prefix of the input, in
the priority order the CPython backtracking engine explores them; the head
of the list is therefore the match `re.match` produces, together with its
group captures. -/

inductive CharClass where
  | digit
  | word
  | space
  | nonspace
  | anyChar
  | lit (c : Char)
  | litCI (c : Char)
  | notChar (c : Char)
deriving DecidableEq, Repr

def CharClass.test : CharClass → Char → Bool
  | .digit, c => c.isDigit
  | .word, c => isWordChar c
  | .space, c => isSpaceChar c
  | .nonspace, c => !isSpaceChar c
  | .anyChar, c => c != '\n'
  | .lit ch, c => c == ch
  | .litCI ch, c => c.toLower == ch.toLower
  | .notChar ch, c => c != ch

inductive Re where
  | eps
  | cls (c : CharClass)
  | seq (a b : Re)
  | alt (a b : Re)
  | opt (a : Re)
  | starG (c : CharClass)
  | plusG (c : CharClass)
  | plusL (c : CharClass)
  | repN (c : CharClass) (n : Nat)
  | group (name : String) (a : Re)
deriving DecidableEq, Repr

/-- Group captures of one match path (most recent binding first). -/
abbrev Groups := List (String × String)

/-- Greedy star over a one-character class: longest consumption first. -/
def starRests (c : CharClass) : List Char → List (List Char)
  | [] => [[]]
  | x :: xs =>
    if c.test x then starRests c xs ++ [x :: xs] else [x :: xs]

/-- Lazy plus over a one-character class: shortest consumption (≥ 1) first. -/
def lazyRests (c : CharClass) : List Char → List (List Char)
  | [] => []
  | x :: xs =>
    if c.test x then xs :: lazyRests c xs else []

/-- Exactly `n` repetitions of a one-character class. -/
def repRest (c : CharClass) : Nat → List Char → Option (List Char)
  | 0, s => some s
  | _ + 1, [] => none
  | n + 1, x :: xs => if c.test x then repRest c n xs else none

/-- All prefix matches of `r` against `s`, with groups, in backtracking
priority order. -/
def Re.runM : Re → List Char → Groups → List (Groups × List Char)
  | .eps, s, g => [(g, s)]
  | .cls c, s, g =>
    match s with
    | [] => []
    | x :: xs => if c.test x then [(g, xs)] else []
  | .seq a b, s, g => (a.runM s g).flatMap fun p => b.runM p.2 p.1
  | .alt a b, s, g => a.runM s g ++ b.runM s g
  | .opt a, s, g => a.runM s g ++ [(g, s)]
  | .starG c, s, g => (starRests c s).map fun r => (g, r)
  | .plusG c, s, g =>
    match s with
    | [] => []
    | x :: xs =>
      if c.test x then (starRests c xs).map fun r => (g, r) else []
  | .plusL c, s, g => (lazyRests c s).map fun r => (g, r)
  | .repN c n, s, g =>
    match repRest c n s with
    | some r => [(g, r)]
    | none => []
  | .group nm a, s, g =>
    (a.runM s g).map fun p =>
      ((nm, String.mk (s.take (s.length - p.2.length))) :: p.1, p.2)

/-- `re.match`: the highest-priority prefix match, if any. -/
def reMatch (r : Re) (s : List Char) : Option Groups :=
  (r.runM s []).head?.map Prod.fst

/-- Does the pattern match a prefix (truthiness of `re.match`)? -/
def reTest (r : Re) (s : List Char) : Bool :=
  (r.runM s []) ≠ []

/-- `data.get(name)` on a groupdict: `none` both for an absent key and an
unmatched group. -/
def gOpt (g : Groups) (name : String) : Option String :=
  g.lookup name

/-- `data.get(name, default)` where the call sites only reach the default
when the group is absent from the pattern. -/
def gStr (g : Groups) (name : String) (dflt : String) : String :=
  (g.lookup name).getD dflt

def Re.chain (rs : List Re) : Re :=
  rs.foldr Re.seq Re.eps

/-- A case-insensitive literal word, as a sequence of `litCI` classes. -/
def litWordCI (w : List Char) : Re :=
  Re.chain (w.map fun c => Re.cls (.litCI c))

/-! ### The grammar table (`parser.py` / `log_analyzer.py`, identical patterns) -/

/-- `(?P<month>\w+)\s+(?P<day>\d+)\s+(?P<time>\d+:\d+:\d+)\s+(?P<host>\S+)\s+(?P<process>\S+?)(\[(?P<pid>\d+)\])?\s*:\s*(?P<message>.+)` -/
def syslogRe : Re :=
  Re.chain [
    .group "month" (.plusG .word), .plusG .space,
    .group "day" (.plusG .digit), .plusG .space,
    .group "time" (Re.chain [.plusG .digit, .cls (.lit ':'), .plusG .digit,
      .cls (.lit ':'), .plusG .digit]), .plusG .space,
    .group "host" (.plusG .nonspace), .plusG .space,
    .group "process" (.plusL .nonspace),
    .opt (Re.chain [.cls (.lit '['), .group "pid" (.plusG .digit), .cls (.lit ']')]),
    .starG .space, .cls (.lit ':'), .starG .space,
    .group "message" (.plusG .anyChar)]

/-- `(?P<ip>\S+)\s+\S+\s+\S+\s+\[(?P<timestamp>[^\]]+)\]\s+"(?P<method>\S+)\s+(?P<path>\S+)\s+(?P<protocol>\S+)"\s+(?P<status>\d+)\s+(?P<bytes>\S+)\s+"(?P<referrer>[^"]*)"\s+"(?P<user_agent>[^"]*)"` -/
def nginxAccessRe : Re :=
  Re.chain [
    .group "ip" (.plusG .nonspace), .plusG .space,
    .plusG .nonspace, .plusG .space, .plusG .nonspace, .plusG .space,
    .cls (.lit '['), .group "timestamp" (.plusG (.notChar ']')), .cls (.lit ']'),
    .plusG .space, .cls (.lit '"'),
    .group "method" (.plusG .nonspace), .plusG .space,
    .group "path" (.plusG .nonspace), .plusG .space,
    .group "protocol" (.plusG .nonspace), .cls (.lit '"'), .plusG .space,
    .group "status" (.plusG .digit), .plusG .space,
    .group "bytes" (.plusG .nonspace), .plusG .space,
    .cls (.lit '"'), .group "referrer" (.starG (.notChar '"')), .cls (.lit '"'),
    .plusG .space,
    .cls (.lit '"'), .group "user_agent" (.starG (.notChar '"')), .cls (.lit '"')]

/-- `(?P<timestamp>\d{4}/\d{2}/\d{2}\s+\d{2}:\d{2}:\d{2})\s+\[(?P<severity>\w+)\]\s+(?P<pid>\d+)#(?P<tid>\d+):\s+(\*(?P<cid>\d+)\s+)?(?P<message>.+)` -/
def nginxErrorRe : Re :=
  Re.chain [
    .group "timestamp" (Re.chain [.repN .digit 4, .cls (.lit '/'), .repN .digit 2,
      .cls (.lit '/'), .repN .digit 2, .plusG .space, .repN .digit 2,
      .cls (.lit ':'), .repN .digit 2, .cls (.lit ':'), .repN .digit 2]),
    .plusG .space, .cls (.lit '['), .group "severity" (.plusG .word), .cls (.lit ']'),
    .plusG .space, .group "pid" (.plusG .digit), .cls (.lit '#'),
    .group "tid" (.plusG .digit), .cls (.lit ':'), .plusG .space,
    .opt (Re.chain [.cls (.lit '*'), .group "cid" (.plusG .digit), .plusG .space]),
    .group "message" (.plusG .anyChar)]

def appSeverityAlt : Re :=
  .alt (litWordCI "error".data)
    (.alt (litWordCI "warn".data)
      (.alt (litWordCI "warning".data)
        (.alt (litWordCI "info".data) (litWordCI "debug".data))))

/-- The `(?P<timestamp>\d{4}-\d{2}-\d{2}\s+\d{2}:\d{2}:\d{2})` head of the
application-log pattern. -/
def appTimestampRe : Re :=
  .group "timestamp" (Re.chain [.repN .digit 4, .cls (.lit '-'), .repN .digit 2,
    .cls (.lit '-'), .repN .digit 2, .plusG .space, .repN .digit 2,
    .cls (.lit ':'), .repN .digit 2, .cls (.lit ':'), .repN .digit 2])

/-- `(\.\d+)?`. -/
def appFracRe : Re :=
  .opt (Re.chain [.cls (.lit '.'), .plusG .digit])

/-- `(\s+\[(?P<logger>[^\]]+)\])?\s*[-:]?\s*(?P<message>.+)`. -/
def appTailRe : Re :=
  Re.chain [
    .opt (Re.chain [.plusG .space, .cls (.lit '['),
      .group "logger" (.plusG (.notChar ']')), .cls (.lit ']')]),
    .starG .space, .opt (.alt (.cls (.lit '-')) (.cls (.lit ':'))), .starG .space,
    .group "message" (.plusG .anyChar)]

/-- `(?P<timestamp>\d{4}-\d{2}-\d{2}\s+\d{2}:\d{2}:\d{2})(\.\d+)?\s+(?P<severity>ERROR|WARN|WARNING|INFO|DEBUG)(\s+\[(?P<logger>[^\]]+)\])?\s*[-:]?\s*(?P<message>.+)` with `re.IGNORECASE` -/
def appRe : Re :=
  .seq appTimestampRe (.seq appFracRe (.seq (.plusG .space)
    (.seq (.group "severity" appSeverityAlt) appTailRe)))

end LogVer

namespace LogVer

/-! ### Datetimes and `strptime`

`datetime` values are embedded as records of numeric fields.  The
`strptime` models below follow CPython's `_strptime` field regexes
(`%Y` = exactly four digits, `%d` = `3[01]|[12]\d|0[1-9]|[1-9]`, and so
on), a whitespace run for a blank in the format, and the full-string
requirement, followed by the `datetime` constructor's day-of-month
validation.  For the formats used here every numeric field is followed by
a non-digit separator or the end of input, so committing to the longest
field alternative first is equivalent to full regex backtracking. -/

structure DT where
  year : Nat
  month : Nat
  day : Nat
  hour : Nat
  minute : Nat
  second : Nat
deriving DecidableEq, Repr

def pad2 (n : Nat) : String :=
  if n < 10 then "0" ++ toString n else toString n

def pad4 (n : Nat) : String :=
  if n < 10 then "000" ++ toString n
  else if n < 100 then "00" ++ toString n
  else if n < 1000 then "0" ++ toString n
  else toString n

/-- `datetime.isoformat()` for second resolution. -/
def DT.iso (t : DT) : String :=
  pad4 t.year ++ "-" ++ pad2 t.month ++ "-" ++ pad2 t.day ++ "T" ++
    pad2 t.hour ++ ":" ++ pad2 t.minute ++ ":" ++ pad2 t.second

/-- `strftime("%Y-%m-%d %H:00")`. -/
def DT.hourLabel (t : DT) : String :=
  pad4 t.year ++ "-" ++ pad2 t.month ++ "-" ++ pad2 t.day ++ " " ++
    pad2 t.hour ++ ":00"

/-- Chronological encoding of a (valid) datetime; field-lexicographic. -/
def DT.key (t : DT) : Nat :=
  ((((t.year * 13 + t.month) * 32 + t.day) * 24 + t.hour) * 60 + t.minute) * 60
    + t.second

def isLeap (y : Nat) : Bool :=
  (y % 4 == 0 && y % 100 != 0) || y % 400 == 0

def daysInMonth (y m : Nat) : Nat :=
  if m == 2 then (if isLeap y then 29 else 28)
  else if m == 4 || m == 6 || m == 9 || m == 11 then 30
  else 31

/-- The `datetime` constructor's validation (fields already range-checked by
the `strptime` field parsers except the day-of-month upper bound and the
year lower bound). -/
def mkDT? (y mo d h mi s : Nat) : Option DT :=
  if 1 ≤ y ∧ 1 ≤ d ∧ d ≤ daysInMonth y mo then some ⟨y, mo, d, h, mi, s⟩
  else none

/-- `%Y`: exactly four digits. -/
def pYear : List Char → Option (Nat × List Char)
  | a :: b :: c :: d :: s =>
    if a.isDigit && b.isDigit && c.isDigit && d.isDigit then
      some (((digitVal a * 10 + digitVal b) * 10 + digitVal c) * 10 + digitVal d, s)
    else none
  | _ => none

/-- `%d`: `3[01]|[12]\d|0[1-9]|[1-9]`. -/
def pDay : List Char → Option (Nat × List Char)
  | a :: b :: s =>
    if a == '3' && (b == '0' || b == '1') then some (30 + digitVal b, s)
    else if (a == '1' || a == '2') && b.isDigit then
      some (digitVal a * 10 + digitVal b, s)
    else if a == '0' && b.isDigit && b != '0' then some (digitVal b, s)
    else if a.isDigit && a != '0' then some (digitVal a, b :: s)
    else none
  | [a] => if a.isDigit && a != '0' then some (digitVal a, []) else none
  | [] => none

/-- `%m`: `1[0-2]|0[1-9]|[1-9]`. -/
def pMonthNum : List Char → Option (Nat × List Char)
  | a :: b :: s =>
    if a == '1' && b.isDigit && digitVal b ≤ 2 then some (10 + digitVal b, s)
    else if a == '0' && b.isDigit && b != '0' then some (digitVal b, s)
    else if a.isDigit && a != '0' then some (digitVal a, b :: s)
    else none
  | [a] => if a.isDigit && a != '0' then some (digitVal a, []) else none
  | [] => none

/-- `%H`: `2[0-3]|[0-1]\d|\d`. -/
def pHour : List Char → Option (Nat × List Char)
  | a :: b :: s =>
    if a == '2' && b.isDigit && digitVal b ≤ 3 then some (20 + digitVal b, s)
    else if (a == '0' || a == '1') && b.isDigit then
      some (digitVal a * 10 + digitVal b, s)
    else if a.isDigit then some (digitVal a, b :: s)
    else none
  | [a] => if a.isDigit then some (digitVal a, []) else none
  | [] => none

/-- `%M` and `%S`: `[0-5]\d|\d`. -/
def pMinSec : List Char → Option (Nat × List Char)
  | a :: b :: s =>
    if a.isDigit && digitVal a ≤ 5 && b.isDigit then
      some (digitVal a * 10 + digitVal b, s)
    else if a.isDigit then some (digitVal a, b :: s)
    else none
  | [a] => if a.isDigit then some (digitVal a, []) else none
  | [] => none

def monthAbbrs : List (String × Nat) :=
  [("jan", 1), ("feb", 2), ("mar", 3), ("apr", 4), ("may", 5), ("jun", 6),
   ("jul", 7), ("aug", 8), ("sep", 9), ("oct", 10), ("nov", 11), ("dec", 12)]

/-- `%b`: a three-letter month abbreviation, case-insensitively. -/
def pMonthAbbr : List Char → Option (Nat × List Char)
  | a :: b :: c :: s =>
    match monthAbbrs.lookup (String.mk [a.toLower, b.toLower, c.toLower]) with
    | some m => some (m, s)
    | none => none
  | _ => none

/-- A blank in a `strptime` format: `\s+`. -/
def pWs : List Char → Option (Unit × List Char)
  | c :: s => if isSpaceChar c then some ((), s.dropWhile isSpaceChar) else none
  | [] => none

def pChar (c : Char) : List Char → Option (Unit × List Char)
  | x :: s => if x == c then some ((), s) else none
  | [] => none

def pEnd : List Char → Option Unit
  | [] => some ()
  | _ :: _ => none

/-- `datetime.strptime(s, '%d/%b/%Y:%H:%M:%S')`. -/
def strpAccessTs (s : List Char) : Option DT := do
  let (d, s) ← pDay s
  let (_, s) ← pChar '/' s
  let (mo, s) ← pMonthAbbr s
  let (_, s) ← pChar '/' s
  let (y, s) ← pYear s
  let (_, s) ← pChar ':' s
  let (h, s) ← pHour s
  let (_, s) ← pChar ':' s
  let (mi, s) ← pMinSec s
  let (_, s) ← pChar ':' s
  let (sec, s) ← pMinSec s
  let _ ← pEnd s
  mkDT? y mo d h mi sec

/-- `datetime.strptime(s, '%Y/%m/%d %H:%M:%S')`. -/
def strpSlashTs (s : List Char) : Option DT := do
  let (y, s) ← pYear s
  let (_, s) ← pChar '/' s
  let (mo, s) ← pMonthNum s
  let (_, s) ← pChar '/' s
  let (d, s) ← pDay s
  let (_, s) ← pWs s
  let (h, s) ← pHour s
  let (_, s) ← pChar ':' s
  let (mi, s) ← pMinSec s
  let (_, s) ← pChar ':' s
  let (sec, s) ← pMinSec s
  let _ ← pEnd s
  mkDT? y mo d h mi sec

/-- `datetime.strptime(s, '%Y-%m-%d %H:%M:%S')`. -/
def strpDashTs (s : List Char) : Option DT := do
  let (y, s) ← pYear s
  let (_, s) ← pChar '-' s
  let (mo, s) ← pMonthNum s
  let (_, s) ← pChar '-' s
  let (d, s) ← pDay s
  let (_, s) ← pWs s
  let (h, s) ← pHour s
  let (_, s) ← pChar ':' s
  let (mi, s) ← pMinSec s
  let (_, s) ← pChar ':' s
  let (sec, s) ← pMinSec s
  let _ ← pEnd s
  mkDT? y mo d h mi sec

/-- `datetime.strptime(s, '%Y %b %d %H:%M:%S')`. -/
def strpSyslogTs (s : List Char) : Option DT := do
  let (y, s) ← pYear s
  let (_, s) ← pWs s
  let (mo, s) ← pMonthAbbr s
  let (_, s) ← pWs s
  let (d, s) ← pDay s
  let (_, s) ← pWs s
  let (h, s) ← pHour s
  let (_, s) ← pChar ':' s
  let (mi, s) ← pMinSec s
  let (_, s) ← pChar ':' s
  let (sec, s) ← pMinSec s
  let _ ← pEnd s
  mkDT? y mo d h mi sec

/-- `datetime.strptime(s, '%H:%M:%S')` (unset fields default to 1900-01-01). -/
def strpHMS (s : List Char) : Option DT := do
  let (h, s) ← pHour s
  let (_, s) ← pChar ':' s
  let (mi, s) ← pMinSec s
  let (_, s) ← pChar ':' s
  let (sec, s) ← pMinSec s
  let _ ← pEnd s
  mkDT? 1900 1 1 h mi sec

/-- `datetime.strptime(s, '%b %d %H:%M:%S')`. -/
def strpSyslogNoYearTs (s : List Char) : Option DT := do
  let (mo, s) ← pMonthAbbr s
  let (_, s) ← pWs s
  let (d, s) ← pDay s
  let (_, s) ← pWs s
  let (h, s) ← pHour s
  let (_, s) ← pChar ':' s
  let (mi, s) ← pMinSec s
  let (_, s) ← pChar ':' s
  let (sec, s) ← pMinSec s
  let _ ← pEnd s
  mkDT? 1900 mo d h mi sec

/-! ### The bare-IPv4 auxiliary pattern

`\b(?:\d{1,3}\.){3}\d{1,3}\b` with `findall`/`search` scanning.  An octet
`\d{1,3}` is always followed by `.` or by the trailing `\b`, so it matches
exactly a maximal digit run of length 1–3. -/

/-- Split a maximal leading digit run. -/
def digitRun (s : List Char) : List Char × List Char :=
  (s.takeWhile Char.isDigit, s.dropWhile Char.isDigit)

def pOctet (s : List Char) : Option (List Char × List Char) :=
  let (run, rest) := digitRun s
  if 1 ≤ run.length ∧ run.length ≤ 3 then some (run, rest) else none

/-- Try the IP pattern at the current position (the leading `\b` already
checked by the caller); returns the matched text and the rest. -/
def ipMatchAt (s : List Char) : Option (List Char × List Char) := do
  let (o1, s1) ← pOctet s
  let (_, s1) ← pChar '.' s1
  let (o2, s2) ← pOctet s1
  let (_, s2) ← pChar '.' s2
  let (o3, s3) ← pOctet s2
  let (_, s3) ← pChar '.' s3
  let (o4, s4) ← pOctet s3
  -- trailing \b: next char must not be a word character
  match s4 with
  | [] => some (o1 ++ '.' :: o2 ++ '.' :: o3 ++ '.' :: o4, [])
  | c :: _ =>
    if isWordChar c then none
    else some (o1 ++ '.' :: o2 ++ '.' :: o3 ++ '.' :: o4, s4)

/-- `re.findall` scanning for the IP pattern; `fuel` bounds the scan and is
instantiated with the input length. -/
def ipFindAllGo (fuel : Nat) (prevWord : Bool) (s : List Char) : List String :=
  match fuel with
  | 0 => []
  | fuel + 1 =>
    match s with
    | [] => []
    | c :: rest =>
      if !prevWord && c.isDigit then
        match ipMatchAt (c :: rest) with
        | some (ip, rest') => String.mk ip :: ipFindAllGo fuel true rest'
        | none => ipFindAllGo fuel (isWordChar c) rest
      else ipFindAllGo fuel (isWordChar c) rest

/-- `ip_pattern.findall(message)`. -/
def ipFindAll (message : String) : List String :=
  ipFindAllGo message.data.length false message.data

/-- `ip_pattern.search(message)`: the leftmost match. -/
def ipSearch (message : String) : Option String :=
  (ipFindAll message).head?

end LogVer
namespace LogVer

/-! ### `log_analyzer_ar/parser.py`: `LogParser`

`datetime.now()` is made explicit: every place the source calls it is a
read of the `now : DT` parameter, so the dependence of a parse result on
the wall clock is visible in the embedding. -/

inductive LogFormat where
  | syslog
  | nginx_access
  | nginx_error
  | app
  | unknown
deriving DecidableEq, Repr

def LogFormat.value : LogFormat → String
  | .syslog => "syslog"
  | .nginx_access => "nginx_access"
  | .nginx_error => "nginx_error"
  | .app => "app"
  | .unknown => "unknown"

/-- `LogFormat(hint)`: `none` models the `ValueError` branch. -/
def logFormatOf? (s : String) : Option LogFormat :=
  if s = "syslog" then some .syslog
  else if s = "nginx_access" then some .nginx_access
  else if s = "nginx_error" then some .nginx_error
  else if s = "app" then some .app
  else if s = "unknown" then some .unknown
  else none

def LogFormat.pattern : LogFormat → Re
  | .syslog => syslogRe
  | .nginx_access => nginxAccessRe
  | .nginx_error => nginxErrorRe
  | .app => appRe
  | .unknown => Re.eps

/-- The `self.patterns` dict of `LogParser.__init__`, in insertion order. -/
def parserPatterns : List LogFormat :=
  [.syslog, .nginx_access, .nginx_error, .app]

/-- The first format in `fmts` whose pattern matches the line, else UNKNOWN. -/
def firstMatching (fmts : List LogFormat) (line : List Char) : LogFormat :=
  match fmts with
  | [] => .unknown
  | f :: rest => if reTest f.pattern line then f else firstMatching rest line

namespace LogParser

/-- `LogParser.detect_format`. -/
def detectFormat (formatHint : String) (line : String) : LogFormat :=
  match (if formatHint ≠ "auto" then logFormatOf? formatHint else none) with
  | some f => f
  | none => firstMatching parserPatterns (stripS line).data

/-- `LogParser._status_to_severity`.  (Python `int` also tolerates a sign and
surrounding whitespace, but the `status` group this receives is all digits,
where it agrees with `toNatDigits?`.) -/
def statusToSeverity (status : String) : String :=
  match toNatDigits? status with
  | some code =>
    if 500 ≤ code then "error" else if 400 ≤ code then "warn" else "info"
  | none => "info"

/-- `LogParser._detect_severity`. -/
def detectSeverity (message : String) : String :=
  let mu := upperS message
  if containsS mu "ERROR" || containsS mu "FATAL" || containsS mu "CRITICAL" ||
      containsS mu "FAIL" then "error"
  else if containsS mu "WARN" || containsS mu "WARNING" then "warn"
  else if containsS mu "INFO" || containsS mu "INFORMATION" then "info"
  else if containsS mu "DEBUG" then "debug"
  else "info"

/-- The normalized record produced by `LogParser.parse_line`.  The Python
dictionaries carry a few format-specific extra keys (`host`, `process`,
`method`, `logger`); they are modelled as optional fields that are `none`
for the formats that do not set them. -/
structure Rec where
  timestamp : String
  source_file : String
  format : String
  severity : String
  message : String
  ip : Option String
  status_code : Option String
  endpoint : Option String
  line_number : Nat
  host : Option String := none
  process : Option String := none
  method : Option String := none
  logger : Option String := none
deriving DecidableEq, Repr

/-- `timestamp_str.split()[0]`: first whitespace-separated token. -/
def firstTok (s : String) : Option String :=
  match (s.data.dropWhile isSpaceChar).takeWhile (fun c => !isSpaceChar c) with
  | [] => none
  | tok => some (String.mk tok)

/-- `LogParser._normalize_nginx_access`. -/
def normalizeNginxAccess (g : Groups) (now : DT) (sourceFile : String)
    (lineNumber : Nat) : Rec :=
  let tsStr := gStr g "timestamp" ""
  let iso :=
    match firstTok tsStr with
    | none => now.iso          -- split()[0] raises, caught by the bare except
    | some tok =>
      match strpAccessTs tok.data with
      | some dt => dt.iso
      | none => now.iso
  { timestamp := iso
    source_file := sourceFile
    format := LogFormat.nginx_access.value
    severity := statusToSeverity (gStr g "status" "200")
    message := gStr g "method" "GET" ++ " " ++ gStr g "path" "/"
    ip := gOpt g "ip"
    status_code := gOpt g "status"
    endpoint := gOpt g "path"
    method := gOpt g "method"
    line_number := lineNumber }

/-- `LogParser._normalize_nginx_error`. -/
def normalizeNginxError (g : Groups) (now : DT) (sourceFile : String)
    (lineNumber : Nat) : Rec :=
  let tsStr := gStr g "timestamp" ""
  let iso :=
    match strpSlashTs tsStr.data with
    | some dt => dt.iso
    | none => now.iso
  let sev0 := lowerS (gStr g "severity" "error")
  let severity :=
    if sev0 = "warn" then "warn"
    else if sev0 = "error" ∨ sev0 = "crit" ∨ sev0 = "alert" ∨ sev0 = "emerg" then
      "error"
    else "info"
  { timestamp := iso
    source_file := sourceFile
    format := LogFormat.nginx_error.value
    severity := severity
    message := gStr g "message" ""
    ip := none
    status_code := none
    endpoint := none
    line_number := lineNumber }

/-- `LogParser._normalize_syslog`.  `current_year = datetime.now().year` is
`now.year`. -/
def normalizeSyslog (g : Groups) (now : DT) (sourceFile : String)
    (lineNumber : Nat) : Rec :=
  let month := gStr g "month" "Jan"
  let day := gStr g "day" "1"
  let timeStr := gStr g "time" "00:00:00"
  let dtStr := toString now.year ++ " " ++ month ++ " " ++ day ++ " " ++ timeStr
  let iso :=
    match strpSyslogTs dtStr.data with
    | some dt => dt.iso
    | none => now.iso
  let message := gStr g "message" ""
  { timestamp := iso
    source_file := sourceFile
    format := LogFormat.syslog.value
    severity := detectSeverity message
    message := message
    ip := ipSearch message
    status_code := none
    endpoint := none
    host := gOpt g "host"
    process := gOpt g "process"
    line_number := lineNumber }

/-- `LogParser._normalize_app`. -/
def normalizeApp (g : Groups) (now : DT) (sourceFile : String)
    (lineNumber : Nat) : Rec :=
  let tsStr := gStr g "timestamp" ""
  let iso :=
    match strpDashTs tsStr.data with
    | some dt => dt.iso
    | none => now.iso
  let sev0 := lowerS (gStr g "severity" "info")
  let severity := if sev0 = "warning" then "warn" else sev0
  let message := gStr g "message" ""
  { timestamp := iso
    source_file := sourceFile
    format := LogFormat.app.value
    severity := severity
    message := message
    ip := ipSearch message
    status_code := none
    endpoint := none
    logger := gOpt g "logger"
    line_number := lineNumber }

/-- `LogParser.parse_line`. -/
def parseLine (formatHint : String) (now : DT) (line0 : String)
    (sourceFile : String := "") (lineNumber : Nat := 0) : Option Rec :=
  let line := stripS line0
  if line = "" then none
  else
    let logFormat := detectFormat formatHint line
    match logFormat with
    | .unknown =>
      some { timestamp := now.iso
             source_file := sourceFile
             format := LogFormat.unknown.value
             severity := "unknown"
             message := takeS 200 line
             ip := none
             status_code := none
             endpoint := none
             line_number := lineNumber }
    | fmt =>
      match reMatch fmt.pattern line.data with
      | none => none
      | some g =>
        match fmt with
        | .nginx_access => some (normalizeNginxAccess g now sourceFile lineNumber)
        | .nginx_error => some (normalizeNginxError g now sourceFile lineNumber)
        | .syslog => some (normalizeSyslog g now sourceFile lineNumber)
        | .app => some (normalizeApp g now sourceFile lineNumber)
        | .unknown => none

end LogParser

end LogVer
namespace LogVer

/-! ### `log_analyzer.py`: the `LogAnalyzer` class -/

namespace LogAn

inductive LFmt where
  | nginx_access
  | nginx_error
  | syslog
  | generic_app
  | unknown
deriving DecidableEq, Repr

/-- `LogAnalyzer.parse_log_line`: the grammar cascade in source order
(nginx access, nginx error, syslog, generic app), with an `unknown`
fallback carrying `{'message': line}`. -/
def parseLogLine (line0 : String) : Option (LFmt × Groups) :=
  let line := stripS line0
  if line = "" then none
  else
    match reMatch nginxAccessRe line.data with
    | some g => some (.nginx_access, g)
    | none =>
      match reMatch nginxErrorRe line.data with
      | some g => some (.nginx_error, g)
      | none =>
        match reMatch syslogRe line.data with
        | some g => some (.syslog, g)
        | none =>
          match reMatch appRe line.data with
          | some g => some (.generic_app, g)
          | none => some (.unknown, [("message", line)])

/-- The keyword scan of `LogAnalyzer.detect_severity` (uppercase results). -/
def scanSeverity (message : String) : String :=
  let mu := upperS message
  if containsS mu "ERROR" || containsS mu "FATAL" || containsS mu "CRITICAL" ||
      containsS mu "FAIL" then "ERROR"
  else if containsS mu "WARN" || containsS mu "WARNING" then "WARN"
  else if containsS mu "INFO" || containsS mu "INFORMATION" then "INFO"
  else if containsS mu "DEBUG" then "DEBUG"
  else "INFO"

/-- `LogAnalyzer.detect_severity(message, explicit_severity)`; an explicit
severity (a truthy string) is uppercased and returned unchanged. -/
def detectSeverity (message : String) (explicit : Option String) : String :=
  match explicit with
  | some e => if e = "" then scanSeverity message else upperS e
  | none => scanSeverity message

/-- The severity the `analyze` loop assigns to one line (the loop body's
`severity = self.detect_severity(message, severity)` after the per-format
explicit-severity selection). -/
def lineSeverity (line : String) : Option String :=
  (parseLogLine line).map fun p =>
    let message := gStr p.2 "message" ""
    let explicit : Option String :=
      if p.1 = .nginx_error ∨ p.1 = .generic_app then
        some (gStr p.2 "severity" "")
      else none
    detectSeverity message explicit

/-- The first match of `(\d{2}):\d{2}:\d{2}` anywhere in the string
(`re.search`), returning group 1 verbatim. -/
def hhAt : List Char → Option String
  | a :: b :: c :: d :: e :: f :: g :: _ =>
    if a.isDigit && b.isDigit && c == ':' && d.isDigit && e.isDigit && f == ':'
        && g.isDigit then some (String.mk [a, b])
    else none
  | _ => none

def searchHH : List Char → Option String
  | [] => none
  | c :: rest =>
    match hhAt (c :: rest) with
    | some r => some r
    | none => searchHH rest

/-- `LogAnalyzer.extract_hour_from_timestamp`.  When the string contains a
space the conditional expression passes a *list* to `strptime`, whose
`TypeError` escapes the inner `except ValueError` and lands in the outer
`except Exception`, yielding `"00:00"` without trying the regex fallback.
Otherwise each format of the list is tried on `timestamp_str.split('.')[0]`
(formats whose blank cannot match a string without a space character can
still match one containing other whitespace, so all five are kept). -/
def extractHour (ts : String) : String :=
  if ts.data.contains ' ' then "00:00"
  else
    let s := ts.data.takeWhile (fun c => c ≠ '.')
    match strpDashTs s with
    | some dt => pad2 dt.hour ++ ":00"
    | none =>
      match strpSlashTs s with
      | some dt => pad2 dt.hour ++ ":00"
      | none =>
        match strpAccessTs s with
        | some dt => pad2 dt.hour ++ ":00"
        | none =>
          match strpHMS s with
          | some dt => pad2 dt.hour ++ ":00"
          | none =>
            match strpSyslogNoYearTs s with
            | some dt => pad2 dt.hour ++ ":00"
            | none =>
              match searchHH ts.data with
              | some hh => hh ++ ":00"
              | none => "00:00"

/-- `re.sub(r'\d+', 'N', s)`: collapse every maximal digit run to `N`. -/
def subDigitsNGo : Bool → List Char → List Char
  | _, [] => []
  | prevDigit, c :: rest =>
    if c.isDigit then
      if prevDigit then subDigitsNGo true rest
      else 'N' :: subDigitsNGo true rest
    else c :: subDigitsNGo false rest

def subDigitsN (s : String) : String :=
  String.mk (subDigitsNGo false s.data)

/-- The running state of `LogAnalyzer.analyze`: line counters plus the
severity / normalized-message / ip / status / hour-bucket counters.
Counters are modelled extensionally as multiplicity functions (Python
`Counter`/`defaultdict` equality ignores insertion order; the order-aware
ranking of `most_common` is modelled separately below). -/
structure AggState where
  total : Nat := 0
  parsed : Nat := 0
  sev : String → Nat := fun _ => 0
  msg : String → Nat := fun _ => 0
  ips : String → Nat := fun _ => 0
  status : String → Nat := fun _ => 0
  timeline : String → Nat := fun _ => 0

def initState : AggState := {}

def bump (f : String → Nat) (k : String) : String → Nat :=
  fun x => if x = k then f x + 1 else f x

/-- One iteration of the `analyze` loop body on a raw line. -/
def observeLine (st : AggState) (line : String) : AggState :=
  match parseLogLine line with
  | none => { st with total := st.total + 1 }
  | some (logType, data) =>
    let message := gStr data "message" ""
    let explicit : Option String :=
      if logType = .nginx_error ∨ logType = .generic_app then
        some (gStr data "severity" "")
      else none
    let severity := detectSeverity message explicit
    let normalizedMsg := subDigitsN (takeS 100 message)
    let ipKeys : List String :=
      if logType = .nginx_access then
        match gOpt data "ip" with
        | some ip => if ip = "" then [] else [ip]
        | none => []
      else ipFindAll message
    let statusKey : Option String :=
      if logType = .nginx_access then
        match gOpt data "status" with
        | some s => if s = "" then none else some s
        | none => none
      else none
    let timestamp :=
      match gOpt data "timestamp" with
      | some ts => if ts = "" then gStr data "time" "" else ts
      | none => gStr data "time" ""
    { total := st.total + 1
      parsed := st.parsed + 1
      sev := bump st.sev severity
      msg := bump st.msg normalizedMsg
      ips := ipKeys.foldl bump st.ips
      status :=
        match statusKey with
        | some s => bump st.status s
        | none => st.status
      timeline :=
        if timestamp ≠ "" then bump st.timeline (extractHour timestamp)
        else st.timeline }

/-- Sequential aggregation of a list of raw lines (the `analyze` loop). -/
def aggregate (lines : List String) : AggState :=
  lines.foldl observeLine initState

/-- Modelled from the spec: the repository has no merge operation for
aggregate states (each run aggregates all its files sequentially into one
state); §5 defines the missing merge as "pairwise map-union plus counter
addition" of two `AggregateState`s. -/
def mergeState (a b : AggState) : AggState :=
  { total := a.total + b.total
    parsed := a.parsed + b.parsed
    sev := fun k => a.sev k + b.sev k
    msg := fun k => a.msg k + b.msg k
    ips := fun k => a.ips k + b.ips k
    status := fun k => a.status k + b.status k
    timeline := fun k => a.timeline k + b.timeline k }

end LogAn

/-! ### Ordered counters and `most_common`

Python's `Counter` remembers first-insertion order of its keys;
`most_common(n)` (via `heapq.nlargest` keyed on the count, which breaks
ties in favour of earlier items) returns the `n` largest entries sorted by
count descending with ties in insertion order — i.e. a stable descending
sort followed by `take n`. -/

abbrev OCounter := List (String × Nat)

/-- `counter[k] += 1`: an existing key keeps its position, a new key is
appended. -/
def oinc (c : OCounter) (k : String) : OCounter :=
  match c with
  | [] => [(k, 1)]
  | (k0, n) :: rest =>
    if k0 = k then (k0, n + 1) :: rest else (k0, n) :: oinc rest k

/-- `Counter(ks)`. -/
def buildOC (ks : List String) : OCounter :=
  ks.foldl oinc []

/-- Stable insertion for a descending-by-count sort: an element is placed
before the first entry whose count does not exceed its own. -/
def insertDesc (x : String × Nat) : List (String × Nat) → List (String × Nat)
  | [] => [x]
  | y :: ys => if y.2 ≤ x.2 then x :: y :: ys else y :: insertDesc x ys

/-- Stable descending sort by count. -/
def sortDesc (c : OCounter) : OCounter :=
  c.foldr insertDesc []

/-- `counter.most_common(n)`. -/
def mostCommon (n : Nat) (c : OCounter) : OCounter :=
  (sortDesc c).take n

end LogVer
namespace LogVer

/-! ### `log_analyzer_ar/analyzer.py`: the entry-based `LogAnalyzer` -/

namespace AnalyzerAr

/-- The parsed-entry shape consumed by `analyzer.py` (its `LogEntry` class
is imported from a parser variant not present in the repository; the fields
here are the ones `analyzer.py` reads: `timestamp`, `severity`, `ip`,
`status_code`, `endpoint`, `file_name`, `line_number`, matching §3 of the
spec). -/
structure LogEntry where
  timestamp : Option DT := none
  severity : String := "INFO"
  ip : Option String := none
  status_code : Option Nat := none
  endpoint : Option String := none
  file_name : String := ""
  line_number : Nat := 0
deriving DecidableEq, Repr

/-- `severity in ("ERROR", "CRITICAL", "FATAL")`. -/
def isErr3 (s : String) : Bool :=
  s == "ERROR" || s == "CRITICAL" || s == "FATAL"

/-- `_get_summary`'s `error_count`. -/
def errorCount (es : List LogEntry) : Nat :=
  (es.filter (fun e => isErr3 e.severity)).length

/-- `_get_summary`'s `parsed_entries` (entries with a timestamp). -/
def withTs (es : List LogEntry) : Nat :=
  (es.filter (fun e => e.timestamp.isSome)).length

/-- `entry.timestamp.replace(minute=0, second=0, microsecond=0)`. -/
def hourKey (t : DT) : DT :=
  { t with minute := 0, second := 0 }

structure TBucket where
  timestamp : String
  hour : String
  total : Nat
  errors : Nat
  warnings : Nat
deriving DecidableEq, Repr

def insertAscDT (x : DT) : List DT → List DT
  | [] => [x]
  | y :: ys => if x.key ≤ y.key then x :: y :: ys else y :: insertAscDT x ys

def sortAscDT (l : List DT) : List DT :=
  l.foldr insertAscDT []

/-- The distinct hour keys of the entries, ascending (`sorted(hourly.keys())`;
the pre-sort order of the distinct keys is irrelevant to the sorted result). -/
def hourKeys (es : List LogEntry) : List DT :=
  sortAscDT ((es.filterMap (fun e => e.timestamp)).map hourKey).dedup

def mkBucket (es : List LogEntry) (h : DT) : TBucket :=
  let inb := es.filter fun e =>
    match e.timestamp with
    | some t => hourKey t = h
    | none => false
  { timestamp := h.iso
    hour := h.hourLabel
    total := inb.length
    errors := (inb.filter (fun e => isErr3 e.severity)).length
    warnings := (inb.filter (fun e => e.severity == "WARN")).length }

/-- `LogAnalyzer._get_timeline`. -/
def getTimeline (es : List LogEntry) : List TBucket :=
  (hourKeys es).map (mkBucket es)

structure IpStat where
  ip : String
  count : Nat
  errors : Nat
  warnings : Nat
deriving DecidableEq, Repr

/-- `if entry.ip:` and equality with the counted key. -/
def ipTruthyEq (e : LogEntry) (k : String) : Bool :=
  match e.ip with
  | some v => v ≠ "" && v == k
  | none => false

/-- `LogAnalyzer._get_top_ips` (source default `limit = 20`). -/
def getTopIps (es : List LogEntry) (limit : Nat := 20) : List IpStat :=
  let ips := (es.filterMap (fun e => e.ip)).filter (fun v => v ≠ "")
  (mostCommon limit (buildOC ips)).map fun p =>
    { ip := p.1
      count := p.2
      errors := (es.filter (fun e => ipTruthyEq e p.1 && isErr3 e.severity)).length
      warnings :=
        (es.filter (fun e => ipTruthyEq e p.1 && e.severity == "WARN")).length }

def insertAscNat (x : Nat) : List Nat → List Nat
  | [] => [x]
  | y :: ys => if x ≤ y then x :: y :: ys else y :: insertAscNat x ys

def sortAscNat (l : List Nat) : List Nat :=
  l.foldr insertAscNat []

/-- The truthy status codes of the entries (`if e.status_code`). -/
def statusVals (es : List LogEntry) : List Nat :=
  (es.filterMap (fun e => e.status_code)).filter (fun c => c ≠ 0)

/-- `LogAnalyzer._get_status_codes` as (code, count) pairs sorted by code
(the rendered category string is presentation only and not modelled). -/
def getStatusCodes (es : List LogEntry) : List (Nat × Nat) :=
  (sortAscNat (statusVals es).dedup).map fun c =>
    (c, ((statusVals es).filter (fun v => v = c)).length)

/-- `sum(s["count"] for s in status_codes if s["code"] >= 500)`. -/
def serverErrors (es : List LogEntry) : Nat :=
  (((getStatusCodes es).filter (fun p => 500 ≤ p.1)).map (fun p => p.2)).sum

/-- `summary["parse_rate"] < 70` with `parse_rate = (with_timestamp/total*100)`
(`0` when `total = 0`).  The comparison is modelled with exact rational
arithmetic (`10·w < 7·t`); the source compares the value after
`round(·, 1)`, which can only differ on the measure-zero rounding window
`[69.95, 70)`. -/
def lowParseRate (es : List LogEntry) : Bool :=
  if es.length = 0 then true else 10 * withTs es < 7 * es.length

structure Finding where
  severity : String
  title : String
deriving DecidableEq, Repr

/-! `LogAnalyzer._get_notable_findings` appends findings block by block;
each block below is one of its `findings.append` sites.  Findings are
identified by their `severity` and `title` fields; the
`description`/`recommendation` prose is presentation only and not
modelled.  Threshold comparisons on float ratios are modelled by the
equivalent exact integer comparisons (`error_rate > 10` ⟺
`10·errors > total`, `errors > 3·avg_errors` ⟺ `len·errors > 3·total_errors`,
`errors/count > 0.5` ⟺ `2·errors > count`). -/

/-- The high / elevated error-rate block. -/
def findingsErrorRate (es : List LogEntry) : List Finding :=
  if 0 < es.length then
    if 10 * errorCount es > es.length then [⟨"high", "High Error Rate Detected"⟩]
    else if 20 * errorCount es > es.length then [⟨"medium", "Elevated Error Rate"⟩]
    else []
  else []

/-- The condition of the timeline error-spike scan (with `avg_errors`
cleared of its denominator). -/
def spikeCondB (len totalErrs : Nat) (b : TBucket) : Bool :=
  decide (len * b.errors > 3 * totalErrs) && decide (5 < b.errors)

/-- The error-spike block: only the first spiking bucket is reported. -/
def findingsSpike (es : List LogEntry) : List Finding :=
  let tl := getTimeline es
  let totalErrs := (tl.map (fun b => b.errors)).sum
  if 1 < tl.length then
    match tl.find? (spikeCondB tl.length totalErrs) with
    | some b => [⟨"medium", "Error Spike at " ++ b.hour⟩]
    | none => []
  else []

/-- The suspicious-IP block over the five highest-count IPs. -/
def findingsSuspicious (es : List LogEntry) : List Finding :=
  ((getTopIps es).take 5).filterMap fun ipd =>
    if 10 < ipd.count && ipd.count < 2 * ipd.errors then
      some ⟨"medium", "Suspicious Activity from " ++ ipd.ip⟩
    else none

/-- The 5xx server-error block. -/
def findingsServer (es : List LogEntry) : List Finding :=
  if 0 < serverErrors es then
    [⟨if 50 < serverErrors es then "high" else "medium",
      "Server Errors Detected (5xx)"⟩]
  else []

/-- The low-parse-rate block. -/
def findingsLowParse (es : List LogEntry) : List Finding :=
  if lowParseRate es then [⟨"low", "Low Log Parse Rate"⟩] else []

/-- `LogAnalyzer._get_notable_findings`. -/
def getNotableFindings (es : List LogEntry) : List Finding :=
  let fs := findingsErrorRate es ++ findingsSpike es ++ findingsSuspicious es
    ++ findingsServer es ++ findingsLowParse es
  if fs = [] then [⟨"info", "No Significant Issues Detected"⟩] else fs

end AnalyzerAr

end LogVer

namespace LogVer

/-- The capture-group names occurring in a pattern. -/
def Re.names : Re → List String
  | .eps => []
  | .cls _ => []
  | .seq a b => a.names ++ b.names
  | .alt a b => a.names ++ b.names
  | .opt a => a.names
  | .starG _ => []
  | .plusG _ => []
  | .plusL _ => []
  | .repN _ _ => []
  | .group n a => n :: a.names

/-- Mapping the format tags of `log_analyzer.py` onto the shared grammar
table. -/
def lfmtFormat : LogAn.LFmt → LogFormat
  | .nginx_access => .nginx_access
  | .nginx_error => .nginx_error
  | .syslog => .syslog
  | .generic_app => .app
  | .unknown => .unknown

/-! ### Claim-side (specification-worded) definitions

These definitions transcribe what the specification sentences say, to be
compared against the source-derived definitions above. -/

/-- The spec's detection priority: WEB_ACCESS, WEB_ERROR, SYSLOG,
STRUCTURED_APP; the first grammar whose anchor matches wins, else UNKNOWN. -/
def specRankedFormats : List LogFormat :=
  [.nginx_access, .nginx_error, .syslog, .app]

def specDetect (line : String) : LogFormat :=
  firstMatching specRankedFormats (stripS line).data

/-- Case-insensitive keyword containment, as the spec words it. -/
def containsCI (hay word : String) : Bool :=
  subList (upperS hay).data (upperS word).data

/-- The spec's keyword-family severity scan: families tried in order
{ERROR, FATAL, CRITICAL, FAIL} → ERROR, {WARN, WARNING} → WARN,
{INFO, INFORMATION} → INFO, {DEBUG} → DEBUG, default INFO
(canonical values written in the parser's lowercase convention). -/
def specKeywordSeverity (message : String) : String :=
  if containsCI message "ERROR" || containsCI message "FATAL" ||
      containsCI message "CRITICAL" || containsCI message "FAIL" then "error"
  else if containsCI message "WARN" || containsCI message "WARNING" then "warn"
  else if containsCI message "INFO" || containsCI message "INFORMATION" then "info"
  else if containsCI message "DEBUG" then "debug"
  else "info"

/-- The spec's status-code severity derivation: ≥500 → ERROR, ≥400 → WARN,
else INFO. -/
def specStatusSeverity (code : Nat) : String :=
  if 500 ≤ code then "error" else if 400 ≤ code then "warn" else "info"

/-- The claim's high-error-rate condition: `error_count / parsed_count > 0.10`. -/
@[reducible] def specHighErrorCond (es : List AnalyzerAr.LogEntry) : Prop :=
  10 * AnalyzerAr.errorCount es > AnalyzerAr.withTs es

/-- The claim's error-spike condition: at least 3 timeline buckets and the
maximum bucket count exceeds 3 × the mean bucket count. -/
@[reducible] def specSpikeCond (es : List AnalyzerAr.LogEntry) : Prop :=
  3 ≤ (AnalyzerAr.getTimeline es).length ∧
    ((AnalyzerAr.getTimeline es).map (fun b => b.total)).foldr max 0
        * (AnalyzerAr.getTimeline es).length
      > 3 * ((AnalyzerAr.getTimeline es).map (fun b => b.total)).sum

/-- First-occurrence order of the keys of a stream (the key order of a
Python dict/Counter filled from that stream). -/
def firstOccGo (seen : List String) : List String → List String
  | [] => []
  | k :: ks =>
    if seen.contains k then firstOccGo seen ks
    else k :: firstOccGo (k :: seen) ks

def firstOcc (ks : List String) : List String :=
  firstOccGo [] ks

end LogVer
namespace LogVer

/-! ### General lemmas about the embedding -/

theorem reTest_false_iff (r : Re) (s : List Char) :
    reTest r s = false ↔ reMatch r s = none := by
  unfold reTest reMatch
  cases r.runM s [] <;> simp

theorem reTest_true_iff (r : Re) (s : List Char) :
    reTest r s = true ↔ ∃ g, reMatch r s = some g := by
  unfold reTest reMatch
  cases r.runM s [] <;> simp

theorem dropWhile_dropWhile (p : Char → Bool) (l : List Char) :
    (l.dropWhile p).dropWhile p = l.dropWhile p := by
  induction l with
  | nil => rfl
  | cons c cs ih => by_cases h : p c <;> simp [List.dropWhile_cons, h, ih]

theorem dropWhile_eq_self_of_head (p : Char → Bool) (l : List Char)
    (h : ∀ c, l.head? = some c → ¬ p c) : l.dropWhile p = l := by
  cases l with
  | nil => rfl
  | cons a as => simp [List.dropWhile_cons, h a rfl]

theorem head_dropWhile_of_some (p : Char → Bool) (l : List Char) (c : Char)
    (h : (l.dropWhile p).head? = some c) : ¬ p c := by
  have := List.head?_dropWhile_not p l
  rw [h] at this
  simpa using this

theorem stripL_idem (s : List Char) : stripL (stripL s) = stripL s := by
  unfold stripL
  set p := isSpaceChar
  set A := s.dropWhile p with hA
  set B := A.reverse.dropWhile p with hB
  have hstep1 : B.reverse.dropWhile p = B.reverse := by
    apply dropWhile_eq_self_of_head
    intro c hc
    rcases hBe : B with _ | ⟨b, bs⟩
    · rw [hBe] at hc; simp at hc
    · have hBne : B ≠ [] := by rw [hBe]; simp
      have hsuf : List.IsSuffix B A.reverse := by rw [hB]; exact List.dropWhile_suffix p
      obtain ⟨pre, hpre⟩ := hsuf
      have hlast : B.getLast? = A.reverse.getLast? := by
        rw [← hpre]; exact (List.getLast?_append_of_ne_nil pre hBne).symm
      rw [List.head?_reverse] at hc
      rw [hlast] at hc
      rw [List.getLast?_reverse] at hc
      exact head_dropWhile_of_some p s c (by rw [← hA]; exact hc)
  rw [hstep1, List.reverse_reverse, dropWhile_dropWhile]

theorem stripS_idem (s : String) : stripS (stripS s) = stripS s := by
  unfold stripS
  simp [stripL_idem]



end LogVer
namespace LogVer

theorem firstMatching_test (fmts : List LogFormat) (line : List Char) (f : LogFormat)
    (hne : f ≠ .unknown) (h : firstMatching fmts line = f) :
    reTest f.pattern line = true := by
  induction fmts with
  | nil => exact absurd h.symm hne
  | cons a rest ih =>
    unfold firstMatching at h
    by_cases ha : reTest a.pattern line = true
    · rw [if_pos ha] at h
      subst h
      exact ha
    · rw [if_neg ha] at h
      exact ih h

end LogVer

open LogVer

/-- C10: an empty or whitespace-only line yields no record from
`LogParser.parse_line`, and in the `log_analyzer.py` analysis loop it
increments only the total-lines counter, leaving every severity, message,
IP, status and timeline statistic untouched. -/
theorem c10_blank_lines (line : String) (h : stripS line = "") :
    (∀ hint now sf ln, LogParser.parseLine hint now line sf ln = none) ∧
    (∀ st : LogAn.AggState,
      LogAn.observeLine st line = { st with total := st.total + 1 }) := by
  constructor
  · intro hint now sf ln
    unfold LogParser.parseLine
    simp [h]
  · intro st
    unfold LogAn.observeLine LogAn.parseLogLine
    simp [h]

/-- Witness for C10 at the concrete whitespace-only line `"  \t "`. -/
theorem c10_blank_lines_witness :
    LogParser.parseLine "auto" ⟨2026, 1, 1, 0, 0, 0⟩ "  \t " "" 0 = none ∧
    LogAn.observeLine LogAn.initState "  \t "
      = { LogAn.initState with total := LogAn.initState.total + 1 } :=
  ⟨(c10_blank_lines "  \t " (by decide)).1 "auto" ⟨2026, 1, 1, 0, 0, 0⟩ "" 0,
   (c10_blank_lines "  \t " (by decide)).2 LogAn.initState⟩

/-- C1 (code evaluated at the failing inputs): when a line matches no
grammar, and when a syslog timestamp fails to resolve, `parse_line` writes
`datetime.now().isoformat()` into the record's timestamp, so the produced
record depends on the wall clock instead of carrying an "unknown" marker. -/
theorem c1_wall_clock_in_record :
    LogParser.parseLine "auto" ⟨2026, 1, 1, 0, 0, 0⟩ "This is some random text" "" 0
      ≠ LogParser.parseLine "auto" ⟨2027, 5, 6, 7, 8, 9⟩ "This is some random text" "" 0 ∧
    (LogParser.parseLine "auto" ⟨2026, 1, 1, 0, 0, 0⟩
        "Jan 99 10:15:32 host sshd: Failure" "" 0).map (fun r => r.timestamp)
      = some "2026-01-01T00:00:00" ∧
    (LogParser.parseLine "auto" ⟨2027, 5, 6, 7, 8, 9⟩
        "Jan 99 10:15:32 host sshd: Failure" "" 0).map (fun r => r.timestamp)
      = some "2027-05-06T07:08:09" :=
  ⟨by decide, by decide, by decide⟩

/-- C7 (amended): in auto-detect mode a non-blank line always produces a
record (detection only selects a grammar that matches, and unmatched lines
yield the UNKNOWN record); but when the caller asserts a concrete format
whose grammar then fails to match, `parse_line` returns `None` — the line
is dropped, not reported as an UNKNOWN record. -/
theorem c7_extraction_failure :
    (∀ now line sf ln, stripS line ≠ "" →
      (LogParser.parseLine "auto" now line sf ln).isSome = true) ∧
    (∀ hint f now line sf ln, logFormatOf? hint = some f → f ≠ .unknown →
      reTest f.pattern (stripS line).data = false →
      LogParser.parseLine hint now line sf ln = none) := by
  constructor
  · intro now line sf ln hne
    unfold LogParser.parseLine
    rw [if_neg hne]
    have hdet : LogParser.detectFormat "auto" (stripS line)
        = firstMatching parserPatterns (stripS (stripS line)).data := rfl
    rw [stripS_idem] at hdet
    rcases hf : firstMatching parserPatterns (stripS line).data with _ | _ | _ | _ | _ <;>
      rw [hdet, hf]
    case unknown => simp
    all_goals
      obtain ⟨g, hg⟩ := (reTest_true_iff _ _).mp
        (firstMatching_test _ _ _ (by decide) hf)
      simp [hg]
  · intro hint f now line sf ln hfmt hne htest
    unfold LogParser.parseLine
    by_cases hblank : stripS line = ""
    · rw [if_pos hblank]
    · rw [if_neg hblank]
      have hauto : hint ≠ "auto" := by
        intro h
        rw [h, (by decide : logFormatOf? "auto" = none)] at hfmt
        simp at hfmt
      have hdet : LogParser.detectFormat hint (stripS line) = f := by
        unfold LogParser.detectFormat
        rw [if_pos hauto, hfmt]
      rw [hdet]
      have hm : reMatch f.pattern (stripS line).data = none :=
        (reTest_false_iff _ _).mp htest
      rcases f with _ | _ | _ | _ | _ <;> simp_all [LogFormat.pattern]

/-- Witness for C7 at concrete inputs: auto mode on `"hello"` produces a
record; the concrete hint `nginx_access` on the non-matching `"hello world"`
yields `none`. -/
theorem c7_extraction_failure_witness :
    (LogParser.parseLine "auto" ⟨2026, 1, 1, 0, 0, 0⟩ "hello" "" 0).isSome = true ∧
    LogParser.parseLine "nginx_access" ⟨2026, 1, 1, 0, 0, 0⟩ "hello world" "" 0 = none :=
  ⟨c7_extraction_failure.1 ⟨2026, 1, 1, 0, 0, 0⟩ "hello" "" 0 (by decide),
   c7_extraction_failure.2 "nginx_access" .nginx_access ⟨2026, 1, 1, 0, 0, 0⟩
     "hello world" "" 0 (by decide) (by decide) (by decide)⟩

/-- C7 counterexample to the claim as stated: with the concrete hint
`nginx_access`, the non-matching line `"hello world"` is dropped
(`parse_line` returns `None`) instead of being reported as an
UNKNOWN-format record. -/
theorem c7_counterexample :
    LogParser.parseLine "nginx_access" ⟨2026, 1, 1, 0, 0, 0⟩ "hello world" "" 0 = none
      ∧ (∀ r : LogParser.Rec,
          LogParser.parseLine "nginx_access" ⟨2026, 1, 1, 0, 0, 0⟩ "hello world" "" 0
            ≠ some r) := by
  refine ⟨by decide, ?_⟩
  intro r
  rw [(by decide : LogParser.parseLine "nginx_access" ⟨2026, 1, 1, 0, 0, 0⟩
    "hello world" "" 0 = none)]
  simp
open LogVer in
/-- C2 (amended): `log_analyzer.py`'s `parse_log_line` does try the grammars
in the claimed priority order WEB_ACCESS, WEB_ERROR, SYSLOG, STRUCTURED_APP
(first match wins, no match → UNKNOWN); but `parser.py`'s `detect_format`
iterates its pattern dict in insertion order, which tries SYSLOG first:
its auto-detect order is SYSLOG, WEB_ACCESS, WEB_ERROR, STRUCTURED_APP. -/
theorem c2_detection_order :
    (∀ line, (LogAn.parseLogLine line).map (fun p => lfmtFormat p.1)
      = if stripS line = "" then none else some (specDetect line)) ∧
    (∀ line, LogParser.detectFormat "auto" line
      = firstMatching [.syslog, .nginx_access, .nginx_error, .app]
          (stripS line).data) := by
  constructor
  · intro line
    unfold LogAn.parseLogLine specDetect firstMatching specRankedFormats
    by_cases hblank : stripS line = ""
    · simp [hblank]
    · rw [if_neg hblank, if_neg hblank]
      rcases h1 : reMatch nginxAccessRe (stripS line).data with _ | g1
      · rcases h2 : reMatch nginxErrorRe (stripS line).data with _ | g2
        · rcases h3 : reMatch syslogRe (stripS line).data with _ | g3
          · rcases h4 : reMatch appRe (stripS line).data with _ | g4
            · simp [h1, h2, h3, h4, LogFormat.pattern, lfmtFormat, firstMatching,
                (reTest_false_iff _ _).mpr h1, (reTest_false_iff _ _).mpr h2,
                (reTest_false_iff _ _).mpr h3, (reTest_false_iff _ _).mpr h4]
            · simp [h1, h2, h3, h4, LogFormat.pattern, lfmtFormat, firstMatching,
                (reTest_false_iff _ _).mpr h1, (reTest_false_iff _ _).mpr h2,
                (reTest_false_iff _ _).mpr h3, (reTest_true_iff _ _).mpr ⟨g4, h4⟩]
          · simp [h1, h2, h3, LogFormat.pattern, lfmtFormat, firstMatching,
              (reTest_false_iff _ _).mpr h1, (reTest_false_iff _ _).mpr h2,
              (reTest_true_iff _ _).mpr ⟨g3, h3⟩]
        · simp [h1, h2, LogFormat.pattern, lfmtFormat, firstMatching,
            (reTest_false_iff _ _).mpr h1, (reTest_true_iff _ _).mpr ⟨g2, h2⟩]
      · simp [h1, LogFormat.pattern, lfmtFormat, firstMatching, (reTest_true_iff _ _).mpr ⟨g1, h1⟩]
  · intro line
    rfl

open LogVer in
/-- C2 counterexample: a line matched both by the WEB_ACCESS grammar and by
the (looser) SYSLOG grammar.  Under the claimed priority order the first
matching grammar is WEB_ACCESS, but `detect_format` returns SYSLOG. -/
theorem c2_counterexample :
    reTest nginxAccessRe
        (stripS "Jan 17 10:15:32 [17/Jan/2026:10:15:32] \"X: /x HTTP/1.1\" 200 5 \"-\" \"-\"").data
      = true ∧
    specDetect "Jan 17 10:15:32 [17/Jan/2026:10:15:32] \"X: /x HTTP/1.1\" 200 5 \"-\" \"-\""
      = LogFormat.nginx_access ∧
    LogParser.detectFormat "auto"
        "Jan 17 10:15:32 [17/Jan/2026:10:15:32] \"X: /x HTTP/1.1\" 200 5 \"-\" \"-\""
      = LogFormat.syslog :=
  ⟨by decide, by decide, by decide⟩
namespace LogVer

theorem bump_add (s t : String → Nat) (k : String) :
    LogAn.bump (fun x => s x + t x) k = fun x => s x + LogAn.bump t k x := by
  funext x
  unfold LogAn.bump
  by_cases h : x = k <;> simp [h, Nat.add_assoc]

theorem foldl_bump_add (ks : List String) (s t : String → Nat) :
    ks.foldl LogAn.bump (fun x => s x + t x)
      = fun x => s x + ks.foldl LogAn.bump t x := by
  induction ks generalizing t with
  | nil => rfl
  | cons k ks ih =>
    simp only [List.foldl_cons]
    rw [bump_add, ih]

theorem observe_merge (s t : LogAn.AggState) (line : String) :
    LogAn.observeLine (LogAn.mergeState s t) line
      = LogAn.mergeState s (LogAn.observeLine t line) := by
  unfold LogAn.observeLine
  cases h : LogAn.parseLogLine line with
  | none =>
    simp [LogAn.mergeState, Nat.add_assoc]
  | some p =>
    obtain ⟨logType, data⟩ := p
    simp only [LogAn.mergeState, LogAn.AggState.mk.injEq]
    refine ⟨by omega, by omega, bump_add _ _ _, bump_add _ _ _,
      foldl_bump_add _ _ _, ?_, ?_⟩
    · split <;> rename_i heq <;> simp [heq, bump_add]
    · split <;> rename_i heq <;> simp [heq, bump_add]

theorem foldl_observe_merge (B : List String) (s t : LogAn.AggState) :
    B.foldl LogAn.observeLine (LogAn.mergeState s t)
      = LogAn.mergeState s (B.foldl LogAn.observeLine t) := by
  induction B generalizing t with
  | nil => rfl
  | cons b bs ih =>
    simp only [List.foldl_cons]
    rw [observe_merge, ih]

theorem merge_init (s : LogAn.AggState) :
    LogAn.mergeState s LogAn.initState = s := by
  cases s
  simp [LogAn.mergeState, LogAn.initState]

end LogVer

open LogVer in
/-- C3: aggregating two line sequences separately and merging the states by
pairwise map-union plus counter addition (the merge operation of spec §5,
absent from the source) is field-for-field identical to aggregating their
concatenation in one sequential pass; and the merge is associative and
commutative. -/
theorem c3_merge_homomorphism :
    (∀ A B : List String, LogAn.aggregate (A ++ B)
        = LogAn.mergeState (LogAn.aggregate A) (LogAn.aggregate B)) ∧
    (∀ x y z : LogAn.AggState,
      LogAn.mergeState (LogAn.mergeState x y) z
        = LogAn.mergeState x (LogAn.mergeState y z)) ∧
    (∀ x y : LogAn.AggState, LogAn.mergeState x y = LogAn.mergeState y x) := by
  refine ⟨?_, ?_, ?_⟩
  · intro A B
    unfold LogAn.aggregate
    rw [List.foldl_append]
    conv_lhs => rw [show A.foldl LogAn.observeLine LogAn.initState
      = LogAn.mergeState (A.foldl LogAn.observeLine LogAn.initState) LogAn.initState
      from (merge_init _).symm]
    rw [foldl_observe_merge]
  · intro x y z
    cases x; cases y; cases z
    simp only [LogAn.mergeState, LogAn.AggState.mk.injEq]
    refine ⟨by omega, by omega, ?_, ?_, ?_, ?_, ?_⟩ <;> (funext k; omega)
  · intro x y
    cases x; cases y
    simp only [LogAn.mergeState, LogAn.AggState.mk.injEq]
    refine ⟨by omega, by omega, ?_, ?_, ?_, ?_, ?_⟩ <;> (funext k; omega)
namespace LogVer

theorem sev_of_mem_findingsSpike (es : List AnalyzerAr.LogEntry)
    (g : AnalyzerAr.Finding) (h : g ∈ AnalyzerAr.findingsSpike es) :
    g.severity = "medium" := by
  simp only [AnalyzerAr.findingsSpike] at h
  split at h
  · split at h
    · simp at h
      rw [h]
    · simp at h
  · simp at h

theorem sev_of_mem_findingsSuspicious (es : List AnalyzerAr.LogEntry)
    (g : AnalyzerAr.Finding) (h : g ∈ AnalyzerAr.findingsSuspicious es) :
    g.severity = "medium" := by
  simp only [AnalyzerAr.findingsSuspicious, List.mem_filterMap] at h
  obtain ⟨ipd, _, heq⟩ := h
  split at heq
  · rw [← Option.some.injEq] at heq
    cases heq
    rfl
  · simp at heq

theorem title_of_mem_findingsServer (es : List AnalyzerAr.LogEntry)
    (g : AnalyzerAr.Finding) (h : g ∈ AnalyzerAr.findingsServer es) :
    g.title = "Server Errors Detected (5xx)" := by
  simp only [AnalyzerAr.findingsServer] at h
  split at h
  · simp at h
    rw [h]
  · simp at h

theorem sev_of_mem_findingsLowParse (es : List AnalyzerAr.LogEntry)
    (g : AnalyzerAr.Finding) (h : g ∈ AnalyzerAr.findingsLowParse es) :
    g.severity = "low" := by
  simp only [AnalyzerAr.findingsLowParse] at h
  split at h
  · simp at h
    rw [h]
  · simp at h

theorem highF_mem_findingsErrorRate_iff (es : List AnalyzerAr.LogEntry) :
    (⟨"high", "High Error Rate Detected"⟩ : AnalyzerAr.Finding)
        ∈ AnalyzerAr.findingsErrorRate es
      ↔ 0 < es.length ∧ 10 * AnalyzerAr.errorCount es > es.length := by
  unfold AnalyzerAr.findingsErrorRate
  by_cases h1 : 0 < es.length <;>
    by_cases h2 : 10 * AnalyzerAr.errorCount es > es.length <;>
    by_cases h3 : 20 * AnalyzerAr.errorCount es > es.length <;>
    simp [h1, h2, h3]

end LogVer

open LogVer in
/-- C5 (amended): the high-error-rate finding is present exactly when the
entry list is non-empty and `(ERROR+CRITICAL+FATAL count) / total_entries
> 0.10` — the denominator is the total entry count (parsed or not), not
the parsed count; the boundary is exclusive. -/
theorem c5_high_error_rate (es : List AnalyzerAr.LogEntry) :
    ((⟨"high", "High Error Rate Detected"⟩ : AnalyzerAr.Finding)
        ∈ AnalyzerAr.getNotableFindings es)
      ↔ (0 < es.length ∧ 10 * AnalyzerAr.errorCount es > es.length) := by
  constructor
  · intro hmem
    simp only [AnalyzerAr.getNotableFindings] at hmem
    split at hmem
    · simp at hmem
    · rcases List.mem_append.mp hmem with h | h5
      · rcases List.mem_append.mp h with h | h4
        · rcases List.mem_append.mp h with h | h3
          · rcases List.mem_append.mp h with h1 | h2
            · exact (highF_mem_findingsErrorRate_iff es).mp h1
            · exact absurd (sev_of_mem_findingsSpike es _ h2) (by decide)
          · exact absurd (sev_of_mem_findingsSuspicious es _ h3) (by decide)
        · exact absurd (title_of_mem_findingsServer es _ h4) (by decide)
      · exact absurd (sev_of_mem_findingsLowParse es _ h5) (by decide)
  · intro hc
    unfold AnalyzerAr.getNotableFindings
    have h1 : AnalyzerAr.findingsErrorRate es
        = [⟨"high", "High Error Rate Detected"⟩] := by
      unfold AnalyzerAr.findingsErrorRate
      simp [hc.1, hc.2]
    simp [h1]
open LogVer in
/-- C5 counterexample: 20 entries of which 2 are ERROR (both with
timestamps) and 18 are unparsed INFO entries without timestamps.  The
claim's ratio `error_count / parsed_count = 2/2 > 0.10` holds, yet the
high-error-rate finding is absent, because the source divides by the total
entry count (2/20 = 10% is not > 10%). -/
theorem c5_counterexample :
    specHighErrorCond
        (List.replicate 2
            ({ timestamp := some ⟨2026, 1, 17, 10, 0, 0⟩, severity := "ERROR" }
              : AnalyzerAr.LogEntry)
          ++ List.replicate 18 ({ severity := "INFO" } : AnalyzerAr.LogEntry)) ∧
    (⟨"high", "High Error Rate Detected"⟩ : AnalyzerAr.Finding)
      ∉ AnalyzerAr.getNotableFindings
          (List.replicate 2
              ({ timestamp := some ⟨2026, 1, 17, 10, 0, 0⟩, severity := "ERROR" }
                : AnalyzerAr.LogEntry)
            ++ List.replicate 18 ({ severity := "INFO" } : AnalyzerAr.LogEntry)) :=
  ⟨by decide, by decide⟩

namespace LogVer

theorem title_of_mem_findingsErrorRate (es : List AnalyzerAr.LogEntry)
    (g : AnalyzerAr.Finding) (h : g ∈ AnalyzerAr.findingsErrorRate es) :
    g.title = "High Error Rate Detected" ∨ g.title = "Elevated Error Rate" := by
  unfold AnalyzerAr.findingsErrorRate at h
  split at h
  · split at h
    · simp at h
      left
      rw [h]
    · split at h
      · simp at h
        right
        rw [h]
      · simp at h
  · simp at h

theorem title_of_mem_findingsSuspicious (es : List AnalyzerAr.LogEntry)
    (g : AnalyzerAr.Finding) (h : g ∈ AnalyzerAr.findingsSuspicious es) :
    ∃ ip, g.title = "Suspicious Activity from " ++ ip := by
  simp only [AnalyzerAr.findingsSuspicious, List.mem_filterMap] at h
  obtain ⟨ipd, _, heq⟩ := h
  split at heq
  · rw [← Option.some.injEq] at heq
    cases heq
    exact ⟨ipd.ip, rfl⟩
  · simp at heq

theorem mem_findingsSpike_iff (es : List AnalyzerAr.LogEntry)
    (g : AnalyzerAr.Finding) :
    g ∈ AnalyzerAr.findingsSpike es
      ↔ 1 < (AnalyzerAr.getTimeline es).length ∧
        ∃ b, (AnalyzerAr.getTimeline es).find?
            (AnalyzerAr.spikeCondB (AnalyzerAr.getTimeline es).length
              (((AnalyzerAr.getTimeline es).map (fun b => b.errors)).sum)) = some b
          ∧ g = ⟨"medium", "Error Spike at " ++ b.hour⟩ := by
  simp only [AnalyzerAr.findingsSpike]
  split
  · rename_i hlen
    split
    · rename_i b hb
      simp [hlen, hb]
    · rename_i hb
      simp only [List.not_mem_nil, false_iff, not_and]
      intro _
      rintro ⟨b, hfind, _⟩
      rw [hb] at hfind
      exact Option.noConfusion hfind
  · rename_i hlen
    simp only [List.not_mem_nil, false_iff, not_and]
    intro h
    exact absurd h hlen

/-- The 15-character window that identifies an error-spike finding title. -/
theorem spike_title_take (h : String) :
    ("Error Spike at " ++ h).data.take 15 = ("Error Spike at ").data := by
  rw [String.data_append]
  rw [show (15 : Nat) = ("Error Spike at ").data.length from rfl]
  exact List.take_left _ _

theorem suspicious_title_take (ip : String) :
    ("Suspicious Activity from " ++ ip).data.take 15
      = ("Suspicious Acti").data := by
  rw [String.data_append]
  rw [List.take_append_of_le_length (by decide)]
  decide

end LogVer

open LogVer in
/-- C6 (amended): an error-spike finding is present exactly when more than
one timeline bucket exists and some bucket's ERROR-severity count exceeds
both three times the mean per-bucket error count and the absolute floor 5;
the bucket's total record count plays no role, two buckets suffice, and
only error counts are compared. -/
theorem c6_error_spike (es : List AnalyzerAr.LogEntry) :
    (∃ f ∈ AnalyzerAr.getNotableFindings es,
        f.title.data.take 15 = ("Error Spike at ").data)
      ↔ (1 < (AnalyzerAr.getTimeline es).length ∧
          ∃ b ∈ AnalyzerAr.getTimeline es,
            (AnalyzerAr.getTimeline es).length * b.errors
                > 3 * ((AnalyzerAr.getTimeline es).map (fun b => b.errors)).sum
              ∧ 5 < b.errors) := by
  constructor
  · rintro ⟨f, hmem, htitle⟩
    simp only [AnalyzerAr.getNotableFindings] at hmem
    split at hmem
    · simp at hmem
      rw [hmem] at htitle
      exact absurd htitle (by decide)
    · rcases List.mem_append.mp hmem with h | h5
      · rcases List.mem_append.mp h with h | h4
        · rcases List.mem_append.mp h with h | h3
          · rcases List.mem_append.mp h with h1 | h2
            · rcases title_of_mem_findingsErrorRate es f h1 with ht | ht <;>
                (rw [ht] at htitle; exact absurd htitle (by decide))
            · obtain ⟨hlen, b, hfind, hf⟩ := (mem_findingsSpike_iff es f).mp h2
              refine ⟨hlen, b, List.mem_of_find?_eq_some hfind, ?_, ?_⟩
              · have := List.find?_some hfind
                simp [AnalyzerAr.spikeCondB] at this
                exact this.1
              · have := List.find?_some hfind
                simp [AnalyzerAr.spikeCondB] at this
                exact this.2
          · obtain ⟨ip, ht⟩ := title_of_mem_findingsSuspicious es f h3
            rw [ht] at htitle
            rw [suspicious_title_take] at htitle
            exact absurd htitle (by decide)
        · rw [title_of_mem_findingsServer es f h4] at htitle
          exact absurd htitle (by decide)
      · have := sev_of_mem_findingsLowParse es f h5
        simp only [AnalyzerAr.findingsLowParse] at h5
        split at h5
        · simp at h5
          rw [h5] at htitle
          exact absurd htitle (by decide)
        · simp at h5
  · rintro ⟨hlen, b, hb, hcond, hfloor⟩
    have hex : ∃ x ∈ AnalyzerAr.getTimeline es,
        AnalyzerAr.spikeCondB (AnalyzerAr.getTimeline es).length
          (((AnalyzerAr.getTimeline es).map (fun b => b.errors)).sum) x = true :=
      ⟨b, hb, by simp [AnalyzerAr.spikeCondB, hcond, hfloor]⟩
    obtain ⟨c, hc⟩ := Option.isSome_iff_exists.mp (List.find?_isSome.mpr hex)
    have hmemSpike : (⟨"medium", "Error Spike at " ++ c.hour⟩ : AnalyzerAr.Finding)
        ∈ AnalyzerAr.findingsSpike es :=
      (mem_findingsSpike_iff es _).mpr ⟨hlen, c, hc, rfl⟩
    refine ⟨⟨"medium", "Error Spike at " ++ c.hour⟩, ?_, spike_title_take c.hour⟩
    simp only [AnalyzerAr.getNotableFindings]
    have hfs : (⟨"medium", "Error Spike at " ++ c.hour⟩ : AnalyzerAr.Finding)
        ∈ AnalyzerAr.findingsErrorRate es ++ AnalyzerAr.findingsSpike es
          ++ AnalyzerAr.findingsSuspicious es ++ AnalyzerAr.findingsServer es
          ++ AnalyzerAr.findingsLowParse es := by
      refine List.mem_append.mpr (Or.inl ?_)
      refine List.mem_append.mpr (Or.inl ?_)
      refine List.mem_append.mpr (Or.inl ?_)
      exact List.mem_append.mpr (Or.inr hmemSpike)
    split
    · rename_i hnil
      rw [hnil] at hfs
      simp at hfs
    · exact hfs

open LogVer in
/-- C6 counterexample: six hourly buckets of all-INFO entries with totals
[1,1,1,1,1,6].  The claim's condition holds (6 ≥ 3 buckets and max count
6 > 3 × mean 11/6), yet no error-spike finding is produced, because the
source compares per-bucket ERROR counts (all 0 here) and additionally
requires a bucket with more than 5 errors and only more than one bucket. -/
theorem c6_counterexample :
    specSpikeCond
        (({ timestamp := some ⟨2026, 1, 17, 0, 5, 0⟩, severity := "INFO" }
            : AnalyzerAr.LogEntry)
          :: ({ timestamp := some ⟨2026, 1, 17, 1, 5, 0⟩, severity := "INFO" }
            : AnalyzerAr.LogEntry)
          :: ({ timestamp := some ⟨2026, 1, 17, 2, 5, 0⟩, severity := "INFO" }
            : AnalyzerAr.LogEntry)
          :: ({ timestamp := some ⟨2026, 1, 17, 3, 5, 0⟩, severity := "INFO" }
            : AnalyzerAr.LogEntry)
          :: ({ timestamp := some ⟨2026, 1, 17, 4, 5, 0⟩, severity := "INFO" }
            : AnalyzerAr.LogEntry)
          :: List.replicate 6
              ({ timestamp := some ⟨2026, 1, 17, 5, 5, 0⟩, severity := "INFO" }
                : AnalyzerAr.LogEntry)) ∧
    ¬ ∃ f ∈ AnalyzerAr.getNotableFindings
        (({ timestamp := some ⟨2026, 1, 17, 0, 5, 0⟩, severity := "INFO" }
            : AnalyzerAr.LogEntry)
          :: ({ timestamp := some ⟨2026, 1, 17, 1, 5, 0⟩, severity := "INFO" }
            : AnalyzerAr.LogEntry)
          :: ({ timestamp := some ⟨2026, 1, 17, 2, 5, 0⟩, severity := "INFO" }
            : AnalyzerAr.LogEntry)
          :: ({ timestamp := some ⟨2026, 1, 17, 3, 5, 0⟩, severity := "INFO" }
            : AnalyzerAr.LogEntry)
          :: ({ timestamp := some ⟨2026, 1, 17, 4, 5, 0⟩, severity := "INFO" }
            : AnalyzerAr.LogEntry)
          :: List.replicate 6
              ({ timestamp := some ⟨2026, 1, 17, 5, 5, 0⟩, severity := "INFO" }
                : AnalyzerAr.LogEntry)),
        f.title.data.take 15 = ("Error Spike at ").data :=
  ⟨by decide, by decide⟩
open LogVer in
/-- C4 (amended): the keyword scan implements exactly the spec's ordered
keyword families with default INFO (in both implementations, which agree up
to case convention), the parser's status-code derivation implements
≥500→ERROR / ≥400→WARN / else INFO, and the spec's syslog example line
resolves to severity ERROR (with IP `192.168.1.100`) in both pipelines.
The explicit-severity priority and WARNING→WARN normalization hold only
with caveats recorded in the counterexample. -/
theorem c4_severity_resolution :
    (∀ msg, LogParser.detectSeverity msg = specKeywordSeverity msg) ∧
    (∀ msg, LogAn.scanSeverity msg = upperS (LogParser.detectSeverity msg)) ∧
    (∀ s, LogParser.statusToSeverity s
      = match toNatDigits? s with
        | some n => specStatusSeverity n
        | none => "info") ∧
    ((LogParser.parseLine "auto" ⟨2026, 3, 5, 12, 30, 45⟩
        "Jan 17 10:15:32 webserver sshd[1234]: Failed password for user from 192.168.1.100"
        "" 0).map (fun r => (r.format, r.severity, r.ip))
      = some ("syslog", "error", some "192.168.1.100")) ∧
    (LogAn.lineSeverity
        "Jan 17 10:15:32 webserver sshd[1234]: Failed password for user from 192.168.1.100"
      = some "ERROR") := by
  refine ⟨fun msg => rfl, ?_, fun s => rfl, by decide, by decide⟩
  intro msg
  unfold LogAn.scanSeverity LogParser.detectSeverity
  dsimp only []
  split_ifs <;> decide

open LogVer in
/-- C4 counterexample: a WEB_ERROR line carrying the explicit severity word
`warning` resolves to `info` in the `log_analyzer_ar` parser (its synonym
table knows only warn/error/crit/alert/emerg) and to the non-normalized
`WARNING` in `log_analyzer.py`; and a WEB_ACCESS line with status 500
resolves to `INFO` in `log_analyzer.py`, which never derives severity from
the status code. -/
theorem c4_counterexample :
    ((LogParser.parseLine "auto" ⟨2026, 3, 5, 12, 30, 45⟩
        "2026/01/17 10:15:32 [warning] 1#0: upstream timed out" "" 0).map
          (fun r => r.severity)
      = some "info") ∧
    (LogAn.lineSeverity "2026/01/17 10:15:32 [warning] 1#0: upstream timed out"
      = some "WARNING") ∧
    (LogAn.lineSeverity
        "192.168.1.101 - - [17/Jan/2026:10:15:32 +0000] \"GET /api/users HTTP/1.1\" 500 1234 \"-\" \"Mozilla/5.0\""
      = some "INFO") :=
  ⟨by decide, by decide, by decide⟩
namespace LogVer

theorem mem_insertDesc (x z : String × Nat) (l : List (String × Nat)) :
    z ∈ insertDesc x l ↔ z = x ∨ z ∈ l := by
  induction l with
  | nil => simp [insertDesc]
  | cons y ys ih =>
    unfold insertDesc
    split
    · simp
    · simp [ih]
      tauto

theorem pairwise_insertDesc (x : String × Nat) (l : List (String × Nat))
    (h : l.Pairwise (fun a b => b.2 ≤ a.2)) :
    (insertDesc x l).Pairwise (fun a b => b.2 ≤ a.2) := by
  induction l with
  | nil => simp [insertDesc]
  | cons y ys ih =>
    unfold insertDesc
    rw [List.pairwise_cons] at h
    split
    · rename_i hle
      refine List.pairwise_cons.mpr ⟨?_, List.pairwise_cons.mpr h⟩
      intro z hz
      rcases List.mem_cons.mp hz with rfl | hz
      · exact hle
      · exact le_trans (h.1 z hz) hle
    · rename_i hlt
      refine List.pairwise_cons.mpr ⟨?_, ih h.2⟩
      intro z hz
      rcases (mem_insertDesc x z ys).mp hz with rfl | hz
      · omega
      · exact h.1 z hz

theorem pairwise_sortDesc (c : OCounter) :
    (sortDesc c).Pairwise (fun a b => b.2 ≤ a.2) := by
  induction c with
  | nil => simp [sortDesc]
  | cons x xs ih => exact pairwise_insertDesc x _ ih

theorem filter_insertDesc (x : String × Nat) (l : List (String × Nat)) (m : Nat) :
    (insertDesc x l).filter (fun p => p.2 == m)
      = (x :: l).filter (fun p => p.2 == m) := by
  induction l with
  | nil => rfl
  | cons y ys ih =>
    unfold insertDesc
    split
    · rfl
    · rename_i hlt
      simp only [List.filter_cons] at ih ⊢
      by_cases hx : x.2 = m
      · have hy : ¬ y.2 = m := by omega
        simp [beq_iff_eq, hx, hy] at ih ⊢
        exact ih
      · by_cases hy : y.2 = m <;> simp [beq_iff_eq, hx, hy] at ih ⊢ <;> exact ih

theorem filter_sortDesc (c : OCounter) (m : Nat) :
    (sortDesc c).filter (fun p => p.2 == m) = c.filter (fun p => p.2 == m) := by
  induction c with
  | nil => rfl
  | cons x xs ih =>
    show (insertDesc x (sortDesc xs)).filter _ = _
    rw [filter_insertDesc]
    simp only [List.filter_cons]
    rw [ih]

theorem oinc_keys (c : OCounter) (k : String) :
    (oinc c k).map Prod.fst
      = if (c.map Prod.fst).contains k then c.map Prod.fst
        else c.map Prod.fst ++ [k] := by
  induction c with
  | nil => simp [oinc]
  | cons y ys ih =>
    unfold oinc
    by_cases hk : y.1 = k
    · simp [hk]
    · simp only [List.map_cons, List.contains_cons, if_neg hk]
      have hbeq : (k == y.1) = false := by
        simp only [beq_eq_false_iff_ne, ne_eq]
        intro h
        exact hk h.symm
      rw [hbeq]
      simp only [Bool.false_or]
      rw [ih]
      split <;> simp

end LogVer
namespace LogVer

theorem contains_append (l₁ l₂ : List String) (a : String) :
    (l₁ ++ l₂).contains a = (l₁.contains a || l₂.contains a) := by
  induction l₁ with
  | nil => simp
  | cons x xs ih => simp [List.contains_cons, ih, Bool.or_assoc]

theorem firstOccGo_congr (seen1 seen2 : List String) (ks : List String)
    (h : ∀ x, seen1.contains x = seen2.contains x) :
    firstOccGo seen1 ks = firstOccGo seen2 ks := by
  induction ks generalizing seen1 seen2 with
  | nil => rfl
  | cons k ks ih =>
    unfold firstOccGo
    rw [h k]
    split
    · exact ih seen1 seen2 h
    · rw [ih (k :: seen1) (k :: seen2) fun x => by
        simp only [List.contains_cons, h x]]

theorem foldl_oinc_keys (ks : List String) (c : OCounter) :
    (List.foldl oinc c ks).map Prod.fst
      = c.map Prod.fst ++ firstOccGo (c.map Prod.fst) ks := by
  induction ks generalizing c with
  | nil => simp [firstOccGo]
  | cons k ks ih =>
    simp only [List.foldl_cons]
    rw [ih, oinc_keys]
    by_cases hc : (c.map Prod.fst).contains k
    · rw [if_pos hc]
      have hgo : firstOccGo (c.map Prod.fst) (k :: ks)
          = firstOccGo (c.map Prod.fst) ks := by
        conv_lhs => unfold firstOccGo
        rw [if_pos hc]
      rw [hgo]
    · rw [if_neg hc]
      have hgo : firstOccGo (c.map Prod.fst) (k :: ks)
          = k :: firstOccGo (k :: c.map Prod.fst) ks := by
        conv_lhs => unfold firstOccGo
        rw [if_neg hc]
      rw [hgo, List.append_assoc]
      simp only [List.singleton_append]
      rw [firstOccGo_congr (c.map Prod.fst ++ [k]) (k :: c.map Prod.fst) ks
        fun x => by
          simp only [contains_append, List.contains_cons]
          by_cases hx : x = k <;> simp [hx, List.contains_cons, Bool.or_comm]]

theorem buildOC_keys (ks : List String) :
    (buildOC ks).map Prod.fst = firstOcc ks := by
  unfold buildOC firstOcc
  rw [foldl_oinc_keys]
  rfl

end LogVer

open LogVer in
/-- C8 (amended): every `most_common` ranking contains at most the
requested number of entries, is sorted by count descending, resolves ties
by first-insertion order (made precise by: the per-count fibers of the
sorted list coincide with those of the counter, whose key order is the
first-occurrence order of the observed stream) — and the ranking is a pure
function of the counter, hence identical across repeated runs.  However the
default limit of `analyzer.py`'s top-IP (and top-endpoint) ranking is 20,
not 10; `log_analyzer.py`'s rankings use a fixed 10. -/
theorem c8_ranking :
    (∀ (ks : List String) (n : Nat),
      (mostCommon n (buildOC ks)).length ≤ n ∧
      (mostCommon n (buildOC ks)).Pairwise (fun a b => b.2 ≤ a.2) ∧
      (∀ m, (sortDesc (buildOC ks)).filter (fun p => p.2 == m)
          = (buildOC ks).filter (fun p => p.2 == m)) ∧
      (buildOC ks).map Prod.fst = firstOcc ks) ∧
    (∀ es : List AnalyzerAr.LogEntry, (AnalyzerAr.getTopIps es).length ≤ 20) := by
  constructor
  · intro ks n
    refine ⟨List.length_take_le n _, ?_, fun m => filter_sortDesc _ m, buildOC_keys ks⟩
    exact (pairwise_sortDesc (buildOC ks)).sublist (List.take_sublist n _)
  · intro es
    unfold AnalyzerAr.getTopIps
    rw [List.length_map]
    exact List.length_take_le 20 _

open LogVer in
/-- C8 counterexample: eleven entries with eleven distinct IPs.  The
default invocation of `_get_top_ips` (as `analyze` performs it) returns all
eleven entries — more than the claimed default cap of 10 — because its
source default is `limit = 20`. -/
theorem c8_counterexample :
    (AnalyzerAr.getTopIps
        [({ ip := some "a" } : AnalyzerAr.LogEntry), { ip := some "b" },
         { ip := some "c" }, { ip := some "d" }, { ip := some "e" },
         { ip := some "f" }, { ip := some "g" }, { ip := some "h" },
         { ip := some "i" }, { ip := some "j" }, { ip := some "k" }]).length
      = 11 :=
  by decide
namespace LogVer

theorem mem_runM_seq (a b : Re) (s : List Char) (g : Groups)
    (q : Groups × List Char) (h : q ∈ (Re.seq a b).runM s g) :
    ∃ p ∈ a.runM s g, q ∈ b.runM p.2 p.1 := by
  simpa [Re.runM] using h

/-- A match path binds no group name that does not occur in the pattern:
looking up such a name afterwards gives what it gave before. -/
theorem runM_lookup_eq (r : Re) (s : List Char) (g g' : Groups)
    (s' : List Char) (hmem : (g', s') ∈ r.runM s g) (k : String)
    (hk : k ∉ r.names) : g'.lookup k = g.lookup k := by
  induction r generalizing s g g' s' with
  | eps =>
    simp [Re.runM] at hmem
    rw [hmem.1]
  | cls c =>
    cases s with
    | nil => simp [Re.runM] at hmem
    | cons x xs =>
      simp only [Re.runM] at hmem
      split at hmem <;> simp at hmem
      rw [hmem.1]
  | seq a b iha ihb =>
    obtain ⟨p, hp, hmem⟩ := mem_runM_seq a b s g _ hmem
    simp only [Re.names, List.mem_append] at hk
    push_neg at hk
    rw [ihb p.2 p.1 g' s' hmem hk.2, iha s g p.1 p.2 (by simpa using hp) hk.1]
  | alt a b iha ihb =>
    simp only [Re.runM, List.mem_append] at hmem
    simp only [Re.names, List.mem_append] at hk
    push_neg at hk
    rcases hmem with h | h
    · exact iha s g g' s' h hk.1
    · exact ihb s g g' s' h hk.2
  | opt a iha =>
    simp only [Re.runM, List.mem_append] at hmem
    rcases hmem with h | h
    · exact iha s g g' s' h hk
    · simp at h
      rw [h.1]
  | starG c =>
    simp only [Re.runM, List.mem_map] at hmem
    obtain ⟨r, _, hr⟩ := hmem
    cases hr
    rfl
  | plusG c =>
    cases s with
    | nil => simp [Re.runM] at hmem
    | cons x xs =>
      simp only [Re.runM] at hmem
      split at hmem
      · simp only [List.mem_map] at hmem
        obtain ⟨r, _, hr⟩ := hmem
        cases hr
        rfl
      · simp at hmem
  | plusL c =>
    simp only [Re.runM, List.mem_map] at hmem
    obtain ⟨r, _, hr⟩ := hmem
    cases hr
    rfl
  | repN c n =>
    simp only [Re.runM] at hmem
    split at hmem <;> simp at hmem
    rw [hmem.1]
  | group nm a iha =>
    simp only [Re.runM, List.mem_map] at hmem
    obtain ⟨p, hp, hpr⟩ := hmem
    simp only [Re.names, List.mem_cons] at hk
    push_neg at hk
    cases hpr
    have hkb : (k == nm) = false := by
      simp only [beq_eq_false_iff_ne, ne_eq]
      exact hk.1
    rw [List.lookup, hkb]
    exact iha s g p.1 p.2 hp hk.2

/-- Matching a case-insensitive literal word consumes exactly that word
(up to case) and binds nothing. -/
theorem litWordCI_runM (w : List Char) (s : List Char) (g g' : Groups)
    (s' : List Char) (hmem : (g', s') ∈ (litWordCI w).runM s g) :
    g' = g ∧ s' = s.drop w.length ∧
      (s.take w.length).map Char.toLower = w.map Char.toLower := by
  induction w generalizing s with
  | nil =>
    simp [litWordCI, Re.chain, Re.runM] at hmem
    simp [hmem.1, hmem.2]
  | cons ch cs ih =>
    have hrw : litWordCI (ch :: cs) = Re.seq (Re.cls (.litCI ch)) (litWordCI cs) := rfl
    rw [hrw] at hmem
    obtain ⟨p, hp, hmem⟩ := mem_runM_seq _ _ s g _ hmem
    cases s with
    | nil => simp [Re.runM] at hp
    | cons x xs =>
      simp only [Re.runM] at hp
      split at hp
      · rename_i htest
        simp only [List.mem_singleton] at hp
        subst hp
        obtain ⟨h1, h2, h3⟩ := ih xs hmem
        refine ⟨h1, by simpa using h2, ?_⟩
        simp only [List.length_cons, List.take_succ_cons, List.map_cons, h3]
        simp only [CharClass.test] at htest
        rw [List.cons.injEq]
        exact ⟨by simpa using htest, rfl⟩
      · simp at hp

theorem mem_runM_alt (a b : Re) (s : List Char) (g : Groups)
    (q : Groups × List Char) (h : q ∈ (Re.alt a b).runM s g) :
    q ∈ a.runM s g ∨ q ∈ b.runM s g := by
  simpa [Re.runM] using h

/-- What the severity alternation can consume. -/
theorem appSeverityAlt_runM (s : List Char) (g g' : Groups) (s' : List Char)
    (hmem : (g', s') ∈ appSeverityAlt.runM s g) :
    g' = g ∧ ∃ w : String, w ∈ (["error", "warn", "warning", "info", "debug"] : List String)
      ∧ s' = s.drop w.data.length
      ∧ (s.take w.data.length).map Char.toLower = w.data := by
  have halt : appSeverityAlt
      = Re.alt (litWordCI "error".data)
          (Re.alt (litWordCI "warn".data)
            (Re.alt (litWordCI "warning".data)
              (Re.alt (litWordCI "info".data) (litWordCI "debug".data)))) := rfl
  rw [halt] at hmem
  rcases mem_runM_alt _ _ _ _ _ hmem with h | hmem
  · obtain ⟨h1, h2, h3⟩ := litWordCI_runM "error".data s g g' s' h
    exact ⟨h1, "error", by decide, h2, by rw [h3]; decide⟩
  rcases mem_runM_alt _ _ _ _ _ hmem with h | hmem
  · obtain ⟨h1, h2, h3⟩ := litWordCI_runM "warn".data s g g' s' h
    exact ⟨h1, "warn", by decide, h2, by rw [h3]; decide⟩
  rcases mem_runM_alt _ _ _ _ _ hmem with h | hmem
  · obtain ⟨h1, h2, h3⟩ := litWordCI_runM "warning".data s g g' s' h
    exact ⟨h1, "warning", by decide, h2, by rw [h3]; decide⟩
  rcases mem_runM_alt _ _ _ _ _ hmem with h | h
  · obtain ⟨h1, h2, h3⟩ := litWordCI_runM "info".data s g g' s' h
    exact ⟨h1, "info", by decide, h2, by rw [h3]; decide⟩
  · obtain ⟨h1, h2, h3⟩ := litWordCI_runM "debug".data s g g' s' h
    exact ⟨h1, "debug", by decide, h2, by rw [h3]; decide⟩

/-- A successful application-grammar match binds `severity` to a word whose
lowercasing is one of error/warn/warning/info/debug. -/
theorem appRe_severity (s : List Char) (g : Groups)
    (h : reMatch appRe s = some g) :
    ∃ v, g.lookup "severity" = some v ∧
      lowerS v ∈ (["error", "warn", "warning", "info", "debug"] : List String) := by
  have hmem : ∃ rest, (g, rest) ∈ appRe.runM s [] := by
    unfold reMatch at h
    cases hh : (appRe.runM s []) with
    | nil => rw [hh] at h; simp at h
    | cons q qs =>
      rw [hh] at h
      simp at h
      exact ⟨q.2, by rw [← h]; simp [hh]⟩
  obtain ⟨rest, hmem⟩ := hmem
  unfold appRe at hmem
  obtain ⟨p1, _, hmem⟩ := mem_runM_seq _ _ _ _ _ hmem
  obtain ⟨p2, _, hmem⟩ := mem_runM_seq _ _ _ _ _ hmem
  obtain ⟨p3, _, hmem⟩ := mem_runM_seq _ _ _ _ _ hmem
  obtain ⟨p4, hp4, hmem⟩ := mem_runM_seq _ _ _ _ _ hmem
  -- p4 comes out of the severity group node
  simp only [Re.runM, List.mem_map] at hp4
  obtain ⟨q, hq, hqr⟩ := hp4
  obtain ⟨hg, w, hw, hs', htake⟩ := appSeverityAlt_runM p3.2 p3.1 q.1 q.2 hq
  have hlen : w.data.length ≤ p3.2.length := by
    have hl := congrArg List.length htake
    rw [List.length_map, List.length_take] at hl
    exact min_eq_left_iff.mp hl
  have hcap : p3.2.length - q.2.length = w.data.length := by
    rw [hs', List.length_drop]
    omega
  have hp41 : p4.1 = ("severity", String.mk (p3.2.take w.data.length)) :: p3.1 := by
    rw [← hqr, hcap, hg]
  refine ⟨String.mk (p3.2.take w.data.length), ?_, ?_⟩
  · have hpres := runM_lookup_eq appTailRe p4.2 p4.1 g rest hmem "severity"
      (by decide)
    rw [hpres, hp41, List.lookup]
    simp
  · have hdata : (String.mk (p3.2.take w.data.length)).data
        = p3.2.take w.data.length := rfl
    have hvw : lowerS (String.mk (p3.2.take w.data.length)) = w := by
      unfold lowerS
      rw [hdata, htake]
    rw [hvw]
    exact hw

end LogVer
namespace LogVer

theorem statusToSeverity_mem (s : String) :
    LogParser.statusToSeverity s ∈ (["error", "warn", "info"] : List String) := by
  unfold LogParser.statusToSeverity
  split
  · split_ifs <;> simp
  · simp

theorem detectSeverity_mem (msg : String) :
    LogParser.detectSeverity msg
      ∈ (["error", "warn", "info", "debug"] : List String) := by
  unfold LogParser.detectSeverity
  dsimp only []
  split_ifs <;> simp

theorem sev4_closed (s : String)
    (h : s ∈ (["error", "warn", "info", "debug"] : List String)) :
    s ∈ (["unknown", "error", "warn", "info", "debug"] : List String)
      ∧ s ≠ "" := by
  simp only [List.mem_cons, List.not_mem_nil, or_false] at h
  rcases h with rfl | rfl | rfl | rfl <;> exact ⟨by decide, by decide⟩

theorem sev3_closed (s : String)
    (h : s ∈ (["error", "warn", "info"] : List String)) :
    s ∈ (["unknown", "error", "warn", "info", "debug"] : List String)
      ∧ s ≠ "" := by
  simp only [List.mem_cons, List.not_mem_nil, or_false] at h
  rcases h with rfl | rfl | rfl <;> exact ⟨by decide, by decide⟩

theorem normalizeNginxError_sev (g : Groups) (now : DT) (sf : String) (ln : Nat) :
    (LogParser.normalizeNginxError g now sf ln).severity
      ∈ (["error", "warn", "info"] : List String) := by
  unfold LogParser.normalizeNginxError
  dsimp only []
  split_ifs <;> simp

theorem normalizeApp_sev (g : Groups) (now : DT) (sf : String) (ln : Nat)
    (v : String) (hv : g.lookup "severity" = some v)
    (hvm : lowerS v ∈ (["error", "warn", "warning", "info", "debug"] : List String)) :
    (LogParser.normalizeApp g now sf ln).severity
      ∈ (["unknown", "error", "warn", "info", "debug"] : List String)
      ∧ (LogParser.normalizeApp g now sf ln).severity ≠ "" := by
  have hsev : (LogParser.normalizeApp g now sf ln).severity
      = (if lowerS (gStr g "severity" "info") = "warning" then "warn"
         else lowerS (gStr g "severity" "info")) := rfl
  have hg : gStr g "severity" "info" = v := by
    unfold gStr
    rw [hv]
    rfl
  rw [hsev, hg]
  simp only [List.mem_cons, List.not_mem_nil, or_false] at hvm
  rcases hvm with hw | hw | hw | hw | hw <;> rw [hw] <;> exact ⟨by decide, by decide⟩

end LogVer

open LogVer

/-- C9 (amended): every record the `log_analyzer_ar` parser produces — for
every line, hint and clock — carries exactly one severity drawn from the
closed set {unknown, error, warn, info, debug}, and the severity is never
empty.  (`log_analyzer.py`'s explicit-severity path violates the closed
set; see the counterexample.) -/
theorem c9_severity_closed_set (hint : String) (now : DT) (line sf : String)
    (ln : Nat) (r : LogParser.Rec)
    (h : LogParser.parseLine hint now line sf ln = some r) :
    r.severity ∈ (["unknown", "error", "warn", "info", "debug"] : List String)
      ∧ r.severity ≠ "" := by
  unfold LogParser.parseLine at h
  by_cases hb : stripS line = ""
  · rw [if_pos hb] at h
    exact absurd h (by simp)
  · rw [if_neg hb] at h
    rcases hf : LogParser.detectFormat hint (stripS line) with _ | _ | _ | _ | _ <;>
      simp only [hf, LogFormat.pattern] at h
    · cases hm : reMatch syslogRe (stripS line).data <;> rw [hm] at h
      · exact absurd h (by simp)
      · replace h := Option.some.inj h
        rw [← h]
        exact sev4_closed _ (detectSeverity_mem _)
    · cases hm : reMatch nginxAccessRe (stripS line).data <;> rw [hm] at h
      · exact absurd h (by simp)
      · replace h := Option.some.inj h
        rw [← h]
        exact sev3_closed _ (statusToSeverity_mem _)
    · cases hm : reMatch nginxErrorRe (stripS line).data <;> rw [hm] at h
      · exact absurd h (by simp)
      · replace h := Option.some.inj h
        rw [← h]
        exact sev3_closed _ (normalizeNginxError_sev _ _ _ _)
    · cases hm : reMatch appRe (stripS line).data <;> rw [hm] at h
      · exact absurd h (by simp)
      · rename_i g
        replace h := Option.some.inj h
        rw [← h]
        obtain ⟨v, hv, hvm⟩ := appRe_severity _ _ hm
        exact normalizeApp_sev g now sf ln v hv hvm
    · replace h := Option.some.inj h
      have hsev : r.severity = "unknown" := by rw [← h]
      rw [hsev]
      exact ⟨by decide, by decide⟩

/-- Witness for C9 at a concrete syslog line and clock. -/
theorem c9_severity_closed_set_witness :
    (((LogParser.parseLine "auto" ⟨2026, 3, 5, 12, 30, 45⟩
          "Jan 17 10:15:32 webserver sshd[1234]: Failed password" "" 0).getD
        { timestamp := "", source_file := "", format := "", severity := "",
          message := "", ip := none, status_code := none, endpoint := none,
          line_number := 0 }).severity
      ∈ (["unknown", "error", "warn", "info", "debug"] : List String)) ∧
    ((LogParser.parseLine "auto" ⟨2026, 3, 5, 12, 30, 45⟩
          "Jan 17 10:15:32 webserver sshd[1234]: Failed password" "" 0).getD
        { timestamp := "", source_file := "", format := "", severity := "",
          message := "", ip := none, status_code := none, endpoint := none,
          line_number := 0 }).severity ≠ "" :=
  c9_severity_closed_set "auto" ⟨2026, 3, 5, 12, 30, 45⟩
    "Jan 17 10:15:32 webserver sshd[1234]: Failed password" "" 0 _ (by decide)

/-- C9 counterexample: `log_analyzer.py` uppercases an explicit grammar
severity verbatim, so the WEB_ERROR severity word `notice` yields the
severity `NOTICE`, which lies outside the claimed closed set. -/
theorem c9_counterexample :
    LogAn.lineSeverity "2026/01/17 10:15:32 [notice] 1#0: signal process started"
      = some "NOTICE" ∧
    ("NOTICE" : String)
      ∉ (["CRITICAL", "ERROR", "WARN", "INFO", "DEBUG", "UNKNOWN"] : List String) :=
  ⟨by decide, by decide⟩
